import Mathlib

/-!
Verification development for the flutter_bim core (Rust sources under
src/rust/src).  The Rust code is shallowly embedded: `f32`/`f64` values are
modelled as exact rationals, `u32` arithmetic carries an explicit `% 2^32`,
`HashMap` is modelled as a key-unique association list, and fallible code
returns `Option`/`Except`.  Definitions follow the Rust sources function by
function; theorems settle the specification claims about them.
-/

set_option maxRecDepth 10000

/-! ## Entity data model (src/rust/src/bim/entities.rs) -/

/-- `EntityId` is Rust `i32`; ids produced by the parser are checked against
the `i32` range at parse time. -/
abbrev EntityId := Int

/-- `IfcValue` from entities.rs.  `Real` (Rust `f64`) is modelled as an exact
rational. -/
inductive IfcValue where
  | Null : IfcValue
  | Integer : Int → IfcValue
  | Real : Rat → IfcValue
  | Str : String → IfcValue
  | Enum : String → IfcValue
  | Boolean : Bool → IfcValue
  | EntityRef : EntityId → IfcValue
  | List : List IfcValue → IfcValue

/-- `IfcEntity` from entities.rs. -/
structure IfcEntity where
  id : EntityId
  entity_type : String
  attributes : List IfcValue

namespace IfcEntity

/-- `IfcEntity::get_attr`. -/
def get_attr (e : IfcEntity) (index : Nat) : Option IfcValue :=
  e.attributes.get? index

/-- `IfcEntity::get_string`. -/
def get_string (e : IfcEntity) (index : Nat) : Option String :=
  match e.get_attr index with
  | some (IfcValue.Str s) => some s
  | _ => none

/-- `IfcEntity::get_int`. -/
def get_int (e : IfcEntity) (index : Nat) : Option Int :=
  match e.get_attr index with
  | some (IfcValue.Integer i) => some i
  | _ => none

/-- `IfcEntity::get_real`: a real accessor that also accepts an integer and
widens it. -/
def get_real (e : IfcEntity) (index : Nat) : Option Rat :=
  match e.get_attr index with
  | some (IfcValue.Real r) => some r
  | some (IfcValue.Integer i) => some (i : Rat)
  | _ => none

/-- `IfcEntity::get_entity_ref`. -/
def get_entity_ref (e : IfcEntity) (index : Nat) : Option EntityId :=
  match e.get_attr index with
  | some (IfcValue.EntityRef id) => some id
  | _ => none

/-- `IfcEntity::get_list`. -/
def get_list (e : IfcEntity) (index : Nat) : Option (List IfcValue) :=
  match e.get_attr index with
  | some (IfcValue.List l) => some l
  | _ => none

end IfcEntity

/-! ## Grammar parser (src/rust/src/bim/ifc_parser.rs)

The nom combinators are embedded as functions `List Char → Option (α × List
Char)` returning the parsed value together with the remaining input.  The
recursive value grammar uses a fuel parameter; the top-level entry point
supplies fuel `input.length + 1`, which is sufficient because every recursive
step consumes at least one character. -/

/-- Character class of Rust `multispace0`/`multispace1`. -/
def isMultispace (c : Char) : Bool :=
  c = ' ' || c = '\t' || c = '\n' || c = '\r'

/-- Character an identifier may contain: `is_alphanumeric() || c == _`
(ASCII fragment). -/
def isIdentChar (c : Char) : Bool :=
  c.isAlphanum || c = '_'

/-- `multispace0`: consume any amount of whitespace. -/
def multispace0 : List Char → List Char
  | [] => []
  | c :: rest => if isMultispace c then multispace0 rest else c :: rest

/-- nom `tag`: expect the literal character sequence `t`. -/
def parse_tag (t : List Char) (input : List Char) : Option (List Char) :=
  if t.isPrefixOf input then some (input.drop t.length) else none

/-- nom `char`: expect one specific character. -/
def expect_char (c : Char) : List Char → Option (List Char)
  | [] => none
  | x :: rest => if x = c then some rest else none

/-- nom `take_while`: longest (possibly empty) run satisfying `p`. -/
def take_while (p : Char → Bool) : List Char → List Char × List Char
  | [] => ([], [])
  | c :: rest =>
    if p c then
      let r := take_while p rest
      (c :: r.1, r.2)
    else ([], c :: rest)

/-- nom `take_while1`: longest run satisfying `p`, failing if empty. -/
def take_while1 (p : Char → Bool) (input : List Char) : Option (List Char × List Char) :=
  let r := take_while p input
  if r.1.isEmpty then none else some r

/-- nom `digit1`. -/
def digit1 (input : List Char) : Option (List Char × List Char) :=
  take_while1 Char.isDigit input

/-- nom `take_until`: consume everything strictly before the first occurrence
of `t`, failing if `t` never occurs. -/
def take_until (t : List Char) : List Char → Option (List Char × List Char)
  | [] => none
  | c :: rest =>
    if t.isPrefixOf (c :: rest) then some ([], c :: rest)
    else
      match take_until t rest with
      | some (pre, remaining) => some (c :: pre, remaining)
      | none => none

/-- `opt(one_of("+-"))`. -/
def opt_sign : List Char → Option Char × List Char
  | [] => (none, [])
  | c :: rest => if c = '+' || c = '-' then (some c, rest) else (none, c :: rest)

/-- Decimal digits to a natural number. -/
def digits_to_nat (ds : List Char) : Nat :=
  ds.foldl (fun a c => 10 * a + (c.toNat - 48)) 0

/-- `parse_entity_id`: `#` followed by digits, parsed as Rust `i32`
(overflow is a parse failure). -/
def parse_entity_id (input : List Char) : Option (EntityId × List Char) := do
  let input ← expect_char '#' input
  let (ds, input) ← digit1 input
  let n := digits_to_nat ds
  if n ≤ 2147483647 then some ((n : Int), input) else none

/-- `parse_entity_type`: identifier characters, upper-cased on capture. -/
def parse_entity_type (input : List Char) : Option (String × List Char) := do
  let (cs, input) ← take_while1 isIdentChar input
  some (String.mk (cs.map Char.toUpper), input)

/-- `parse_entity_ref` is `parse_entity_id`. -/
def parse_entity_ref (input : List Char) : Option (EntityId × List Char) :=
  parse_entity_id input

/-- The single-quote character (code 39). -/
def quoteChar : Char := Char.ofNat 39

/-- `parse_string`: single-quoted, stop at the next quote. -/
def parse_string (input : List Char) : Option (String × List Char) := do
  let input ← expect_char quoteChar input
  let (cs, input) := take_while (fun c => c ≠ quoteChar) input
  let input ← expect_char quoteChar input
  some (String.mk cs, input)

/-- `parse_integer`: optional sign, digits, rejected if immediately followed
by a dot; the digit string is parsed as Rust `i64` (overflow fails). -/
def parse_integer (input : List Char) : Option (Int × List Char) := do
  let (sign, input) := opt_sign input
  let (ds, input) ← digit1 input
  match input with
  | c :: _ => if c = '.' then none else pure ()
  | [] => pure ()
  let n := digits_to_nat ds
  if n ≤ 9223372036854775807 then
    some (if sign = some '-' then -(n : Int) else (n : Int), input)
  else none

/-- `parse_float`: optional sign, digits, optional `.digits`, optional
exponent; the decoded value is modelled as an exact rational. -/
def parse_float (input : List Char) : Option (Rat × List Char) := do
  let (sign, input) := opt_sign input
  let (ds, input) ← digit1 input
  -- opt(tuple((char, digit1))) backtracks wholly if the digits are missing
  let (frac, input) :=
    match input with
    | '.' :: rest =>
      match digit1 rest with
      | some (fs, rest2) => (some fs, rest2)
      | none => (none, '.' :: rest)
    | other => (none, other)
  let (expo, input) :=
    match input with
    | c :: rest =>
      if c = 'e' || c = 'E' then
        let (esign, rest2) := opt_sign rest
        match digit1 rest2 with
        | some (es, rest3) => (some (esign, es), rest3)
        | none => (none, c :: rest)
      else (none, c :: rest)
    | [] => (none, [])
  let mantissa : Rat :=
    (digits_to_nat ds : Rat) +
      (match frac with
       | some fs => (digits_to_nat fs : Rat) / (10 : Rat) ^ fs.length
       | none => 0)
  let value : Rat :=
    match expo with
    | some (esign, es) =>
      let e : Int :=
        if esign = some '-' then -(digits_to_nat es : Int) else (digits_to_nat es : Int)
      mantissa * (10 : Rat) ^ e
    | none => mantissa
  some (if sign = some '-' then -value else value, input)

/-- `parse_enum`: `.WORD.`, upper-cased. -/
def parse_enum (input : List Char) : Option (String × List Char) := do
  let input ← expect_char '.' input
  let (cs, input) ← take_while1 isIdentChar input
  let input ← expect_char '.' input
  some (String.mk (cs.map Char.toUpper), input)

/-- `parse_boolean`: `.T.` / `.F.` / `.TRUE.` / `.FALSE.`, in that order. -/
def parse_boolean (input : List Char) : Option (Bool × List Char) :=
  match parse_tag ['.', 'T', '.'] input with
  | some rest => some (true, rest)
  | none =>
    match parse_tag ['.', 'F', '.'] input with
    | some rest => some (false, rest)
    | none =>
      match parse_tag ['.', 'T', 'R', 'U', 'E', '.'] input with
      | some rest => some (true, rest)
      | none =>
        match parse_tag ['.', 'F', 'A', 'L', 'S', 'E', '.'] input with
        | some rest => some (false, rest)
        | none => none

/-- The alternatives of `parse_value`, in the exact source order: null,
entity reference, string, float, integer, boolean, enum, nested list.  The
`fuel` feeds the recursive list alternative. -/
def parse_value_alt (parse_list : List Char → Option (List IfcValue × List Char))
    (input : List Char) : Option (IfcValue × List Char) :=
  match parse_tag ['$'] input with
  | some rest => some (IfcValue.Null, rest)
  | none =>
  match parse_entity_ref input with
  | some (id, rest) => some (IfcValue.EntityRef id, rest)
  | none =>
  match parse_string input with
  | some (s, rest) => some (IfcValue.Str s, rest)
  | none =>
  match parse_float input with
  | some (r, rest) => some (IfcValue.Real r, rest)
  | none =>
  match parse_integer input with
  | some (i, rest) => some (IfcValue.Integer i, rest)
  | none =>
  match parse_boolean input with
  | some (b, rest) => some (IfcValue.Boolean b, rest)
  | none =>
  match parse_enum input with
  | some (s, rest) => some (IfcValue.Enum s, rest)
  | none =>
  match parse_list input with
  | some (l, rest) => some (IfcValue.List l, rest)
  | none => none

/-- The repetition tail of `separated_list0`: `(',' value)*`; if the value
after a comma fails, the comma is not consumed and the list ends.  The
repetition fuel `reps` is supplied as remaining-input length plus one, which
is sufficient because every iteration consumes at least the comma. -/
def parse_sep_rest_with (pv : List Char → Option (IfcValue × List Char)) :
    Nat → List Char → Option (List IfcValue × List Char)
  | 0, _ => none
  | reps + 1, input =>
    match expect_char ',' input with
    | none => some ([], input)
    | some rest =>
      match pv rest with
      | none => some ([], input)
      | some (v, rest2) =>
        match parse_sep_rest_with pv reps rest2 with
        | some (vs, rest3) => some (v :: vs, rest3)
        | none => none

/-- `parse_list` body (`separated_list0` between parentheses), parameterized
by the element parser. -/
def parse_list_with (pv : List Char → Option (IfcValue × List Char))
    (input : List Char) : Option (List IfcValue × List Char) := do
  let input ← expect_char '(' input
  let (vs, input) ←
    match pv input with
    | none => some ([], input)
    | some (v, rest) =>
      match parse_sep_rest_with pv (rest.length + 1) rest with
      | some (vs, rest2) => some (v :: vs, rest2)
      | none => none
  let input ← expect_char ')' input
  some (vs, input)

/-- `parse_value`: skip whitespace, try the alternatives in order, skip
whitespace.  The nested-list alternative recurses one fuel level down. -/
def parse_value : Nat → List Char → Option (IfcValue × List Char)
  | 0, _ => none
  | fuel + 1, input =>
    let input := multispace0 input
    match parse_value_alt (parse_list_with (fun inp => parse_value fuel inp)) input with
    | some (v, rest) => some (v, multispace0 rest)
    | none => none

/-- `parse_list`: parenthesized, comma-separated values. -/
def parse_list (fuel : Nat) (input : List Char) :
    Option (List IfcValue × List Char) :=
  match fuel with
  | 0 => none
  | f + 1 => parse_list_with (fun inp => parse_value f inp) input

/-- `parse_attribute_list`: same grammar as `parse_list`. -/
def parse_attribute_list (fuel : Nat) (input : List Char) :
    Option (List IfcValue × List Char) :=
  parse_list fuel input

/-- `parse_entity_instance`: `#id=TYPE(attrs);` with surrounding
whitespace. -/
def parse_entity_instance (fuel : Nat) (input : List Char) :
    Option (IfcEntity × List Char) := do
  let input := multispace0 input
  let (id, input) ← parse_entity_id input
  let input ← expect_char '=' input
  let (entity_type, input) ← parse_entity_type input
  let (attributes, input) ← parse_attribute_list fuel input
  let input ← expect_char ';' input
  let input := multispace0 input
  some ({ id := id, entity_type := entity_type, attributes := attributes }, input)

/-- nom `many0(parse_entity_instance)`: repeat until the instance grammar
fails. -/
def parse_entity_many (fuel : Nat) : Nat → List Char → List IfcEntity × List Char
  | 0, input => ([], input)
  | reps + 1, input =>
    match parse_entity_instance fuel input with
    | none => ([], input)
    | some (e, rest) =>
      let r := parse_entity_many fuel reps rest
      (e :: r.1, r.2)

/-- `IfcHeader` (its contents are discarded into defaults by the parser). -/
structure IfcHeader where
  file_description : List String
  file_name : String
  time_stamp : String
  author : List String
  organization : List String
  preprocessor_version : String
  originating_system : String
  authorization_field : String
deriving DecidableEq, Repr

/-- `IfcHeader::default`. -/
def IfcHeader.default : IfcHeader :=
  { file_description := [], file_name := "", time_stamp := "", author := [],
    organization := [], preprocessor_version := "", originating_system := "",
    authorization_field := "" }

/-- `IfcFile`: the `HashMap<EntityId, IfcEntity>` is modelled as a
key-unique association list. -/
structure IfcFile where
  header : IfcHeader
  entities : List (EntityId × IfcEntity)

/-- One `HashMap` insertion: replace the value of an existing key, otherwise
append a new binding. -/
def mapInsert (m : List (EntityId × IfcEntity)) (k : EntityId) (v : IfcEntity) :
    List (EntityId × IfcEntity) :=
  if m.any (fun p => p.1 = k) then
    m.map (fun p => if p.1 = k then (k, v) else p)
  else m ++ [(k, v)]

/-- `entities.into_iter().map(|e| (e.id, e)).collect()`: fold the parsed
entities into the map. -/
def collectEntities (es : List IfcEntity) : List (EntityId × IfcEntity) :=
  es.foldl (fun m e => mapInsert m e.id e) []

/-- `IfcFile::entity_count`: size of the entity map. -/
def IfcFile.entity_count (f : IfcFile) : Nat :=
  f.entities.length

/-- `IfcFile::get_entities_by_type`: all entities whose type matches
case-insensitively (ASCII). -/
def eqIgnoreAsciiCase (a b : String) : Bool :=
  a.toList.map Char.toUpper = b.toList.map Char.toUpper

/-- `IfcFile::get_entities_by_type` over the entity-map values. -/
def IfcFile.get_entities_by_type (f : IfcFile) (entity_type : String) :
    List IfcEntity :=
  (f.entities.map Prod.snd).filter (fun e => eqIgnoreAsciiCase e.entity_type entity_type)

/-- `parse_iso_header`: whitespace, `ISO-10303-21;`, whitespace. -/
def parse_iso_header (input : List Char) : Option (List Char) := do
  let input := multispace0 input
  let input ← parse_tag ("ISO-10303-21;".toList) input
  some (multispace0 input)

/-- `parse_iso_footer`: whitespace then `END-ISO-10303-21;`. -/
def parse_iso_footer (input : List Char) : Option (List Char) :=
  parse_tag ("END-ISO-10303-21;".toList) (multispace0 input)

/-- `parse_header_section`: `HEADER;`, then skip to `ENDSEC;` (header
contents are discarded into defaults). -/
def parse_header_section (input : List Char) : Option (IfcHeader × List Char) := do
  let input ← parse_tag ("HEADER;".toList) input
  let input := multispace0 input
  let (_, input) ← take_until ("ENDSEC;".toList) input
  let input ← parse_tag ("ENDSEC;".toList) input
  some (IfcHeader.default, multispace0 input)

/-- `parse_data_section`: `DATA;`, many entity instances, `ENDSEC;`. -/
def parse_data_section (fuel : Nat) (input : List Char) :
    Option (List IfcEntity × List Char) := do
  let input ← parse_tag ("DATA;".toList) input
  let input := multispace0 input
  let (entities, input) := parse_entity_many fuel (input.length + 1) input
  let input := multispace0 input
  let input ← parse_tag ("ENDSEC;".toList) input
  some (entities, input)

/-- `parse_ifc_file`: header tag, header section, data section, footer. -/
def parse_ifc_file (input : List Char) : Option (IfcFile × List Char) := do
  let fuel := input.length + 1
  let input ← parse_iso_header input
  let (header, input) ← parse_header_section input
  let (entities, input) ← parse_data_section fuel input
  let input ← parse_iso_footer input
  some ({ header := header, entities := collectEntities entities }, input)

/-- Normalize Windows line endings: `replace("\r\n", "\n")`. -/
def normalizeNewlines : List Char → List Char
  | [] => []
  | '\r' :: '\n' :: rest => '\n' :: normalizeNewlines rest
  | c :: rest => c :: normalizeNewlines rest

/-- `IfcFile::parse`: normalize line endings, run the grammar, discard the
remaining input on success. -/
def IfcFile.parse (input : String) : Except String IfcFile :=
  match parse_ifc_file (normalizeNewlines input.toList) with
  | some (f, _) => Except.ok f
  | none => Except.error "Failed to parse IFC file"

/-! ## Geometry (src/rust/src/bim/geometry.rs)

`f32` is modelled as an exact rational; `u32` vertex indices carry an
explicit `% 2^32`. -/

/-- `u32` modulus. -/
def U32 : Nat := 4294967296

/-- 3D point / vector (`[f32; 3]`). -/
structure P3 where
  x : Rat
  y : Rat
  z : Rat
deriving DecidableEq, Repr

/-- RGBA color (`[f32; 4]`). -/
structure RGBA where
  r : Rat
  g : Rat
  b : Rat
  a : Rat
deriving DecidableEq, Repr

/-- `Mesh`: flat vertex/index/normal/color buffers. -/
structure Mesh where
  vertices : List Rat
  indices : List Nat
  normals : List Rat
  colors : List Rat
deriving DecidableEq, Repr

/-- `BoundingBox`. -/
structure BoundingBox where
  min : P3
  max : P3
deriving DecidableEq, Repr

namespace Mesh

/-- `Mesh::new`. -/
def new : Mesh := { vertices := [], indices := [], normals := [], colors := [] }

/-- `Mesh::vertex_count`. -/
def vertex_count (m : Mesh) : Nat := m.vertices.length / 3

/-- `Mesh::triangle_count`. -/
def triangle_count (m : Mesh) : Nat := m.indices.length / 3

end Mesh

/-- `f32::MAX` as an exact rational. -/
def f32_max : Rat := 2 ^ 128 - 2 ^ 104

/-- `f32::MIN` (most negative finite `f32`). -/
def f32_min : Rat := -f32_max

/-- Fold step of `Mesh::bounding_box`: componentwise min/max against one
vertex. -/
def bbStep (acc : P3 × P3) (v : P3) : P3 × P3 :=
  ({ x := min acc.1.x v.x, y := min acc.1.y v.y, z := min acc.1.z v.z },
   { x := max acc.2.x v.x, y := max acc.2.y v.y, z := max acc.2.z v.z })

/-- Group a flat coordinate list into consecutive xyz triples (the
`step_by(3)` walk of `bounding_box`). -/
def triples : List Rat → List P3
  | x :: y :: z :: rest => { x := x, y := y, z := z } :: triples rest
  | _ => []

/-- `Mesh::bounding_box`: `None` for an empty vertex buffer, otherwise the
min/max fold over all vertices starting from `(f32::MAX, f32::MIN)`. -/
def Mesh.bounding_box (m : Mesh) : Option BoundingBox :=
  if m.vertices.isEmpty then none
  else
    let start : P3 × P3 :=
      ({ x := f32_max, y := f32_max, z := f32_max },
       { x := f32_min, y := f32_min, z := f32_min })
    let r := (triples m.vertices).foldl bbStep start
    some { min := r.1, max := r.2 }

/-- `BoundingBox::center`. -/
def BoundingBox.center (b : BoundingBox) : P3 :=
  { x := (b.min.x + b.max.x) / 2, y := (b.min.y + b.max.y) / 2,
    z := (b.min.z + b.max.z) / 2 }

/-- `BoundingBox::size`. -/
def BoundingBox.size (b : BoundingBox) : P3 :=
  { x := b.max.x - b.min.x, y := b.max.y - b.min.y, z := b.max.z - b.min.z }

/-- `BoundingBox::union`: componentwise min of mins and max of maxes. -/
def BoundingBox.union (b other : BoundingBox) : BoundingBox :=
  { min := { x := Min.min b.min.x other.min.x, y := Min.min b.min.y other.min.y,
             z := Min.min b.min.z other.min.z },
    max := { x := Max.max b.max.x other.max.x, y := Max.max b.max.y other.max.y,
             z := Max.max b.max.z other.max.z } }

/-- Substring containment test (`str::contains` for string patterns). -/
def strContains (s pat : String) : Bool :=
  (List.range (s.toList.length + 1)).any
    (fun i => pat.toList.isPrefixOf (s.toList.drop i))

/-- `to_uppercase` (ASCII fragment, which is all the color table uses). -/
def strUpper (s : String) : String :=
  String.mk (s.toList.map Char.toUpper)

/-- `color_for_element_type`: substring match against the upper-cased type
name, in the exact source order. -/
def color_for_element_type (element_type : String) : RGBA :=
  let s := strUpper element_type
  if strContains s "WALL" then { r := 17/20, g := 41/50, b := 3/4, a := 1 }
  else if strContains s "SLAB" || strContains s "FLOOR" then
    { r := 3/5, g := 3/5, b := 13/20, a := 1 }
  else if strContains s "DOOR" then { r := 3/5, g := 9/20, b := 3/10, a := 1 }
  else if strContains s "WINDOW" then { r := 7/10, g := 17/20, b := 19/20, a := 7/10 }
  else if strContains s "ROOF" then { r := 3/4, g := 1/2, b := 2/5, a := 1 }
  else if strContains s "STAIR" then { r := 13/20, g := 13/20, b := 13/20, a := 1 }
  else if strContains s "RAILING" then { r := 2/5, g := 2/5, b := 2/5, a := 1 }
  else if strContains s "FURNITURE" then { r := 13/20, g := 1/2, b := 7/20, a := 1 }
  else if strContains s "COLUMN" then { r := 1/2, g := 11/20, b := 7/10, a := 1 }
  else if strContains s "BEAM" then { r := 11/20, g := 11/20, b := 3/5, a := 1 }
  else if strContains s "FOOTING" || strContains s "FOUNDATION" then
    { r := 1/2, g := 1/2, b := 1/2, a := 1 }
  else if strContains s "PIPE" then { r := 1/5, g := 7/10, b := 1/2, a := 1 }
  else if strContains s "DUCT" then { r := 7/10, g := 3/4, b := 4/5, a := 1 }
  else if strContains s "FLOWTERMINAL" || strContains s "TERMINAL" then
    { r := 3/5, g := 13/20, b := 7/10, a := 1 }
  else if strContains s "CABLE" || strContains s "CONDUIT" then
    { r := 9/10, g := 1/2, b := 1/5, a := 1 }
  else if strContains s "ELECTRIC" then { r := 9/10, g := 4/5, b := 1/5, a := 1 }
  else if strContains s "PROXY" then { r := 3/5, g := 1/2, b := 7/10, a := 1 }
  else { r := 7/10, g := 7/10, b := 7/10, a := 1 }

/-- One face of `generate_box_with_normals`: four vertices with a shared
normal and color, two triangles over the current vertex base. -/
def add_quad (m : Mesh) (v0 v1 v2 v3 : P3) (n : P3) (color : RGBA) : Mesh :=
  let base : Nat := m.vertex_count % U32
  { vertices := m.vertices ++
      [v0.x, v0.y, v0.z, v1.x, v1.y, v1.z, v2.x, v2.y, v2.z, v3.x, v3.y, v3.z],
    normals := m.normals ++ [n.x, n.y, n.z, n.x, n.y, n.z, n.x, n.y, n.z, n.x, n.y, n.z],
    colors := m.colors ++ [color.r, color.g, color.b, color.a,
      color.r, color.g, color.b, color.a, color.r, color.g, color.b, color.a,
      color.r, color.g, color.b, color.a],
    indices := m.indices ++ [base % U32, (base + 1) % U32, (base + 2) % U32,
      (base + 2) % U32, (base + 3) % U32, base % U32] }

/-- `generate_box_with_normals`: six faces (front, back, top, bottom, right,
left), each a quad with its own flat normal, all tinted `color`. -/
def generate_box_with_normals (center size : P3) (color : RGBA) : Mesh :=
  let hx := size.x / 2
  let hy := size.y / 2
  let hz := size.z / 2
  let cx := center.x
  let cy := center.y
  let cz := center.z
  let m := Mesh.new
  let m := add_quad m { x := cx - hx, y := cy - hy, z := cz + hz }
    { x := cx + hx, y := cy - hy, z := cz + hz }
    { x := cx + hx, y := cy + hy, z := cz + hz }
    { x := cx - hx, y := cy + hy, z := cz + hz } { x := 0, y := 0, z := 1 } color
  let m := add_quad m { x := cx + hx, y := cy - hy, z := cz - hz }
    { x := cx - hx, y := cy - hy, z := cz - hz }
    { x := cx - hx, y := cy + hy, z := cz - hz }
    { x := cx + hx, y := cy + hy, z := cz - hz } { x := 0, y := 0, z := -1 } color
  let m := add_quad m { x := cx - hx, y := cy + hy, z := cz + hz }
    { x := cx + hx, y := cy + hy, z := cz + hz }
    { x := cx + hx, y := cy + hy, z := cz - hz }
    { x := cx - hx, y := cy + hy, z := cz - hz } { x := 0, y := 1, z := 0 } color
  let m := add_quad m { x := cx - hx, y := cy - hy, z := cz - hz }
    { x := cx + hx, y := cy - hy, z := cz - hz }
    { x := cx + hx, y := cy - hy, z := cz + hz }
    { x := cx - hx, y := cy - hy, z := cz + hz } { x := 0, y := -1, z := 0 } color
  let m := add_quad m { x := cx + hx, y := cy - hy, z := cz + hz }
    { x := cx + hx, y := cy - hy, z := cz - hz }
    { x := cx + hx, y := cy + hy, z := cz - hz }
    { x := cx + hx, y := cy + hy, z := cz + hz } { x := 1, y := 0, z := 0 } color
  let m := add_quad m { x := cx - hx, y := cy - hy, z := cz - hz }
    { x := cx - hx, y := cy - hy, z := cz + hz }
    { x := cx - hx, y := cy + hy, z := cz + hz }
    { x := cx - hx, y := cy + hy, z := cz - hz } { x := -1, y := 0, z := 0 } color
  m

/-- One step of `merge_meshes`: append buffers, remap indices by the running
vertex-count offset (`u32` addition). -/
def mergeStep (result mesh : Mesh) : Mesh :=
  let base : Nat := result.vertex_count % U32
  { vertices := result.vertices ++ mesh.vertices,
    normals := result.normals ++ mesh.normals,
    colors := result.colors ++ mesh.colors,
    indices := result.indices ++ mesh.indices.map (fun idx => (idx + base) % U32) }

/-- `merge_meshes`. -/
def merge_meshes (meshes : List Mesh) : Mesh :=
  meshes.foldl mergeStep Mesh.new

/-! ## BIM model (src/rust/src/bim/model.rs and entities.rs element types) -/

/-- `IfcProduct` (the `properties` map is always empty — reserved). -/
structure IfcProduct where
  id : EntityId
  global_id : String
  name : Option String
  description : Option String
  object_type : Option String
  properties : List (String × String)
deriving DecidableEq, Repr

/-- Wall/slab/column/… all wrap a product plus an unused predefined type. -/
structure IfcWall where
  product : IfcProduct
  predefined_type : Option String
deriving DecidableEq, Repr

structure IfcSlab where
  product : IfcProduct
  predefined_type : Option String
deriving DecidableEq, Repr

structure IfcColumn where
  product : IfcProduct
  predefined_type : Option String
deriving DecidableEq, Repr

structure IfcBeam where
  product : IfcProduct
  predefined_type : Option String
deriving DecidableEq, Repr

structure IfcDoor where
  product : IfcProduct
  overall_height : Option Rat
  overall_width : Option Rat
deriving DecidableEq, Repr

structure IfcWindow where
  product : IfcProduct
  overall_height : Option Rat
  overall_width : Option Rat
deriving DecidableEq, Repr

structure IfcRoof where
  product : IfcProduct
  predefined_type : Option String
deriving DecidableEq, Repr

structure IfcStair where
  product : IfcProduct
  predefined_type : Option String
deriving DecidableEq, Repr

structure IfcFooting where
  product : IfcProduct
  predefined_type : Option String
deriving DecidableEq, Repr

structure IfcPipeSegment where
  product : IfcProduct
  predefined_type : Option String
deriving DecidableEq, Repr

structure IfcDuctSegment where
  product : IfcProduct
  predefined_type : Option String
deriving DecidableEq, Repr

structure IfcFlowTerminal where
  product : IfcProduct
  predefined_type : Option String
deriving DecidableEq, Repr

structure IfcCableCarrierSegment where
  product : IfcProduct
  predefined_type : Option String
deriving DecidableEq, Repr

structure IfcBuildingElementProxy where
  product : IfcProduct
  predefined_type : Option String
deriving DecidableEq, Repr

/-- `IfcGrid`. -/
structure IfcGrid where
  id : EntityId
  global_id : String
  name : Option String
  u_axes : List EntityId
  v_axes : List EntityId
deriving DecidableEq, Repr

/-- `IfcGridAxis`. -/
structure IfcGridAxis where
  id : EntityId
  axis_tag : String
  axis_curve : Option EntityId
  same_sense : Bool
deriving DecidableEq, Repr

/-- `GridLine`: a synthesized renderable segment. -/
structure GridLine where
  tag : String
  start : P3
  stop : P3
  is_u_axis : Bool
deriving DecidableEq, Repr

/-- `IfcBuildingStorey`. -/
structure IfcBuildingStorey where
  id : EntityId
  name : String
  elevation : Option Rat
deriving DecidableEq, Repr

/-- `IfcBuilding`. -/
structure IfcBuilding where
  id : EntityId
  name : String
  description : Option String
deriving DecidableEq, Repr

/-- `IfcSite`. -/
structure IfcSite where
  id : EntityId
  name : String
  description : Option String
  latitude : Option (List Int)
  longitude : Option (List Int)
  elevation : Option Rat
deriving DecidableEq, Repr

/-- `IfcProject`. -/
structure IfcProject where
  id : EntityId
  global_id : String
  name : String
  description : Option String
deriving DecidableEq, Repr

/-- `BimModel`. -/
structure BimModel where
  project : Option IfcProject
  site : Option IfcSite
  building : Option IfcBuilding
  storeys : List IfcBuildingStorey
  walls : List IfcWall
  slabs : List IfcSlab
  doors : List IfcDoor
  windows : List IfcWindow
  roofs : List IfcRoof
  stairs : List IfcStair
  columns : List IfcColumn
  beams : List IfcBeam
  footings : List IfcFooting
  pipes : List IfcPipeSegment
  ducts : List IfcDuctSegment
  flow_terminals : List IfcFlowTerminal
  cable_carriers : List IfcCableCarrierSegment
  proxies : List IfcBuildingElementProxy
  grids : List IfcGrid
  grid_axes : List IfcGridAxis
  grid_lines : List GridLine
  element_count : Nat
deriving DecidableEq, Repr

/-- `BimModel::new`. -/
def BimModel.new : BimModel :=
  { project := none, site := none, building := none, storeys := [],
    walls := [], slabs := [], doors := [], windows := [], roofs := [],
    stairs := [], columns := [], beams := [], footings := [], pipes := [],
    ducts := [], flow_terminals := [], cable_carriers := [], proxies := [],
    grids := [], grid_axes := [], grid_lines := [], element_count := 0 }

/-- `ModelStats`. -/
structure ModelStats where
  total_entities : Nat
  walls : Nat
  slabs : Nat
  columns : Nat
  beams : Nat
  doors : Nat
  windows : Nat
  storeys : Nat
deriving DecidableEq, Repr

/-- `ModelInfo`. -/
structure ModelInfo where
  project_name : String
  building_name : String
  site_name : String
  stats : ModelStats
deriving DecidableEq, Repr

/-- `BimModel::get_info`. -/
def BimModel.get_info (m : BimModel) : ModelInfo :=
  { project_name := (m.project.map IfcProject.name).getD "Unknown Project",
    building_name := (m.building.map IfcBuilding.name).getD "Unknown Building",
    site_name := (m.site.map IfcSite.name).getD "Unknown Site",
    stats :=
      { total_entities := m.element_count,
        walls := m.walls.length, slabs := m.slabs.length,
        columns := m.columns.length, beams := m.beams.length,
        doors := m.doors.length, windows := m.windows.length,
        storeys := m.storeys.length } }

/-- The shared product decoding: global id at index 0, name at 2,
description at 3, object type at 4. -/
def productOf (e : IfcEntity) : IfcProduct :=
  { id := e.id, global_id := (e.get_string 0).getD "",
    name := e.get_string 2, description := e.get_string 3,
    object_type := e.get_string 4, properties := [] }

def extract_project (f : IfcFile) : Option IfcProject :=
  (f.get_entities_by_type "IFCPROJECT").head?.map (fun e =>
    { id := e.id, global_id := (e.get_string 0).getD "",
      name := (e.get_string 2).getD "", description := e.get_string 3 })

def extract_site (f : IfcFile) : Option IfcSite :=
  (f.get_entities_by_type "IFCSITE").head?.map (fun e =>
    { id := e.id, name := (e.get_string 2).getD "",
      description := e.get_string 3, latitude := none, longitude := none,
      elevation := none })

def extract_building (f : IfcFile) : Option IfcBuilding :=
  (f.get_entities_by_type "IFCBUILDING").head?.map (fun e =>
    { id := e.id, name := (e.get_string 2).getD "",
      description := e.get_string 3 })

def extract_storeys (f : IfcFile) : List IfcBuildingStorey :=
  (f.get_entities_by_type "IFCBUILDINGSTOREY").map (fun e =>
    { id := e.id, name := (e.get_string 2).getD "", elevation := e.get_real 8 })

def extract_walls (f : IfcFile) : List IfcWall :=
  (f.get_entities_by_type "IFCWALL").map (fun e =>
    { product := productOf e, predefined_type := none })

def extract_slabs (f : IfcFile) : List IfcSlab :=
  (f.get_entities_by_type "IFCSLAB").map (fun e =>
    { product := productOf e, predefined_type := none })

def extract_columns (f : IfcFile) : List IfcColumn :=
  (f.get_entities_by_type "IFCCOLUMN").map (fun e =>
    { product := productOf e, predefined_type := none })

def extract_beams (f : IfcFile) : List IfcBeam :=
  (f.get_entities_by_type "IFCBEAM").map (fun e =>
    { product := productOf e, predefined_type := none })

def extract_doors (f : IfcFile) : List IfcDoor :=
  (f.get_entities_by_type "IFCDOOR").map (fun e =>
    { product := productOf e, overall_height := e.get_real 5,
      overall_width := e.get_real 6 })

def extract_windows (f : IfcFile) : List IfcWindow :=
  (f.get_entities_by_type "IFCWINDOW").map (fun e =>
    { product := productOf e, overall_height := e.get_real 5,
      overall_width := e.get_real 6 })

def extract_roofs (f : IfcFile) : List IfcRoof :=
  (f.get_entities_by_type "IFCROOF").map (fun e =>
    { product := productOf e, predefined_type := none })

def extract_stairs (f : IfcFile) : List IfcStair :=
  (f.get_entities_by_type "IFCSTAIR").map (fun e =>
    { product := productOf e, predefined_type := none })

def extract_footings (f : IfcFile) : List IfcFooting :=
  (f.get_entities_by_type "IFCFOOTING").map (fun e =>
    { product := productOf e, predefined_type := none })

def extract_pipes (f : IfcFile) : List IfcPipeSegment :=
  (f.get_entities_by_type "IFCPIPESEGMENT").map (fun e =>
    { product := productOf e, predefined_type := none })

def extract_ducts (f : IfcFile) : List IfcDuctSegment :=
  (f.get_entities_by_type "IFCDUCTSEGMENT").map (fun e =>
    { product := productOf e, predefined_type := none })

def extract_flow_terminals (f : IfcFile) : List IfcFlowTerminal :=
  (f.get_entities_by_type "IFCFLOWTERMINAL").map (fun e =>
    { product := productOf e, predefined_type := none })

def extract_cable_carriers (f : IfcFile) : List IfcCableCarrierSegment :=
  (f.get_entities_by_type "IFCCABLECARRIERSEGMENT").map (fun e =>
    { product := productOf e, predefined_type := none })

def extract_proxies (f : IfcFile) : List IfcBuildingElementProxy :=
  (f.get_entities_by_type "IFCBUILDINGELEMENTPROXY").map (fun e =>
    { product := productOf e, predefined_type := none })

/-- Keep only entity references from an attribute list. -/
def refsOnly (l : List IfcValue) : List EntityId :=
  l.filterMap (fun v => match v with
    | IfcValue.EntityRef id => some id
    | _ => none)

def extract_grids (f : IfcFile) : List IfcGrid :=
  (f.get_entities_by_type "IFCGRID").map (fun e =>
    { id := e.id, global_id := (e.get_string 0).getD "",
      name := e.get_string 2,
      u_axes := ((e.get_list 7).map refsOnly).getD [],
      v_axes := ((e.get_list 8).map refsOnly).getD [] })

def extract_grid_axes (f : IfcFile) : List IfcGridAxis :=
  (f.get_entities_by_type "IFCGRIDAXIS").map (fun e =>
    { id := e.id, axis_tag := (e.get_string 0).getD "",
      axis_curve := e.get_entity_ref 1,
      same_sense :=
        match e.get_attr 2 with
        | some (IfcValue.Boolean b) => b
        | some (IfcValue.Enum s) => strContains s "T" || strContains s "TRUE"
        | _ => true })

/-! ## Mesh synthesis (src/rust/src/bim/model.rs)

Both `generate_meshes` and `generate_meshes_filtered` push one
`(ElementInfo, Mesh)` pair per emitted element, in kind order, and then merge
the meshes.  The loops are embedded as per-kind emission lists followed by a
shared assembly step that mirrors `add_element`, highlighting and
`merge_meshes`. -/

/-- `ElementInfo`. -/
structure ElementInfo where
  id : EntityId
  element_type : String
  name : String
  global_id : String
  bounds : BoundingBox
  triangle_start : Nat
  triangle_count : Nat
deriving DecidableEq, Repr

/-- `ModelMesh`. -/
structure ModelMesh where
  vertices : List Rat
  indices : List Nat
  normals : List Rat
  colors : List Rat
  bounds : Option BoundingBox
  elements : List ElementInfo
deriving DecidableEq, Repr

/-- One element to be emitted: the arguments of `add_element` plus the box
color and whether the highlight overwrite applies. -/
structure EmitItem where
  id : EntityId
  element_type : String
  name : String
  global_id : String
  center : P3
  size : P3
  color : RGBA
  highlighted : Bool
deriving DecidableEq, Repr

/-- The fixed highlight color (bright cyan/teal). -/
def highlight_color : RGBA := { r := 1/5, g := 9/10, b := 9/10, a := 1 }

/-- `y_offset` in both mesh generators. -/
def y_offset : Rat := 0

/-- Overwrite every color quad of a mesh (`apply_highlight`).  The color
buffer length is always a multiple of four; a shorter tail is left
untouched (the Rust loop would index out of bounds there). -/
def overwrite_quads (h : RGBA) : List Rat → List Rat
  | _ :: _ :: _ :: _ :: rest => h.r :: h.g :: h.b :: h.a :: overwrite_quads h rest
  | other => other

/-- `apply_highlight`. -/
def apply_highlight (m : Mesh) (h : RGBA) : Mesh :=
  { m with colors := overwrite_quads h m.colors }

/-- The mesh generated for one item: the placeholder box, with the highlight
overwrite when the item is the selected one. -/
def meshOfItem (it : EmitItem) : Mesh :=
  let m := generate_box_with_normals it.center it.size it.color
  if it.highlighted then apply_highlight m highlight_color else m

/-- Bounds recorded by `add_element`: center plus/minus half the size. -/
def itemBounds (it : EmitItem) : BoundingBox :=
  { min := { x := it.center.x - it.size.x / 2, y := it.center.y - it.size.y / 2,
             z := it.center.z - it.size.z / 2 },
    max := { x := it.center.x + it.size.x / 2, y := it.center.y + it.size.y / 2,
             z := it.center.z + it.size.z / 2 } }

/-- The `add_element` fold: each element records the running `u32` triangle
counter as its start and its own mesh's triangle count. -/
def buildElements : Nat → List (EmitItem × Mesh) → List ElementInfo
  | _, [] => []
  | current, (it, m) :: rest =>
    let t := m.triangle_count % U32
    { id := it.id, element_type := it.element_type, name := it.name,
      global_id := it.global_id, bounds := itemBounds it,
      triangle_start := current, triangle_count := t } ::
      buildElements ((current + t) % U32) rest

/-- Shared tail of both mesh generators: generate each item's box, record
element infos, merge all meshes and compute the merged bounds. -/
def assemble (items : List EmitItem) : ModelMesh :=
  let pairs := items.map (fun it => (it, meshOfItem it))
  let merged := merge_meshes (pairs.map Prod.snd)
  { vertices := merged.vertices, indices := merged.indices,
    normals := merged.normals, colors := merged.colors,
    bounds := merged.bounding_box, elements := buildElements 0 pairs }

/-- Wall emission loop (centers/sizes from `generate_meshes`); `sel` is the
optional highlighted element id (`None` for the unfiltered generator, which
has no highlight support). -/
def wall_items (walls : List IfcWall) (sel : Option EntityId) : List EmitItem :=
  walls.enum.map (fun p =>
    { id := p.2.product.id, element_type := "Wall",
      name := p.2.product.name.getD "Wall", global_id := p.2.product.global_id,
      center := { x := (p.1 : Rat) * 3, y := 3/2 + y_offset, z := 0 },
      size := { x := 5/2, y := 3, z := 1/5 },
      color := color_for_element_type "WALL",
      highlighted := sel = some p.2.product.id })

/-- Slab emission loop. -/
def slab_items (slabs : List IfcSlab) (sel : Option EntityId) : List EmitItem :=
  slabs.enum.map (fun p =>
    { id := p.2.product.id, element_type := "Slab",
      name := p.2.product.name.getD "Slab", global_id := p.2.product.global_id,
      center := { x := 0, y := y_offset + (p.1 : Rat) * 7/2, z := 0 },
      size := { x := 10, y := 3/10, z := 8 },
      color := color_for_element_type "SLAB",
      highlighted := sel = some p.2.product.id })

/-- Column emission loop (4-wide grid placement). -/
def column_items (columns : List IfcColumn) (sel : Option EntityId) : List EmitItem :=
  columns.enum.map (fun p =>
    { id := p.2.product.id, element_type := "Column",
      name := p.2.product.name.getD "Column", global_id := p.2.product.global_id,
      center := { x := ((p.1 % 4 : Nat) : Rat) * 3 - 9/2, y := 3/2 + y_offset,
                  z := ((p.1 / 4 : Nat) : Rat) * 3 - 3 },
      size := { x := 2/5, y := 3, z := 2/5 },
      color := color_for_element_type "COLUMN",
      highlighted := sel = some p.2.product.id })

/-- Beam emission loop. -/
def beam_items (beams : List IfcBeam) (sel : Option EntityId) : List EmitItem :=
  beams.enum.map (fun p =>
    { id := p.2.product.id, element_type := "Beam",
      name := p.2.product.name.getD "Beam", global_id := p.2.product.global_id,
      center := { x := 0, y := 14/5 + y_offset, z := (p.1 : Rat) * 2 - 2 },
      size := { x := 8, y := 2/5, z := 3/10 },
      color := color_for_element_type "BEAM",
      highlighted := sel = some p.2.product.id })

/-- Door emission loop (explicit width/height when known). -/
def door_items (doors : List IfcDoor) (sel : Option EntityId) : List EmitItem :=
  doors.enum.map (fun p =>
    let height := p.2.overall_height.getD (21/10)
    let width := p.2.overall_width.getD (9/10)
    { id := p.2.product.id, element_type := "Door",
      name := p.2.product.name.getD "Door", global_id := p.2.product.global_id,
      center := { x := (p.1 : Rat) * 3 + 1, y := height / 2 + y_offset, z := 1/10 },
      size := { x := width, y := height, z := 1/10 },
      color := color_for_element_type "DOOR",
      highlighted := sel = some p.2.product.id })

/-- Window emission loop. -/
def window_items (windows : List IfcWindow) (sel : Option EntityId) : List EmitItem :=
  windows.enum.map (fun p =>
    let height := p.2.overall_height.getD (6/5)
    let width := p.2.overall_width.getD 1
    { id := p.2.product.id, element_type := "Window",
      name := p.2.product.name.getD "Window", global_id := p.2.product.global_id,
      center := { x := (p.1 : Rat) * 3 + 3/2, y := 3/2 + y_offset, z := 1/10 },
      size := { x := width, y := height, z := 1/20 },
      color := color_for_element_type "WINDOW",
      highlighted := sel = some p.2.product.id })

/-- Roof emission loop. -/
def roof_items (roofs : List IfcRoof) (sel : Option EntityId) : List EmitItem :=
  roofs.enum.map (fun p =>
    { id := p.2.product.id, element_type := "Roof",
      name := p.2.product.name.getD "Roof", global_id := p.2.product.global_id,
      center := { x := 0, y := 63/20 + y_offset + (p.1 : Rat) * (1/2), z := 0 },
      size := { x := 10, y := 3/10, z := 8 },
      color := color_for_element_type "ROOF",
      highlighted := sel = some p.2.product.id })

/-- Stair emission loop. -/
def stair_items (stairs : List IfcStair) (sel : Option EntityId) : List EmitItem :=
  stairs.enum.map (fun p =>
    { id := p.2.product.id, element_type := "Stair",
      name := p.2.product.name.getD "Stair", global_id := p.2.product.global_id,
      center := { x := 3 + (p.1 : Rat) * 2, y := 3/2 + y_offset, z := 2 },
      size := { x := 3/2, y := 3, z := 3 },
      color := color_for_element_type "STAIR",
      highlighted := sel = some p.2.product.id })

/-- Footing emission loop (4-wide grid placement). -/
def footing_items (footings : List IfcFooting) (sel : Option EntityId) : List EmitItem :=
  footings.enum.map (fun p =>
    { id := p.2.product.id, element_type := "Footing",
      name := p.2.product.name.getD "Footing", global_id := p.2.product.global_id,
      center := { x := ((p.1 % 4 : Nat) : Rat) * 3 - 9/2, y := -(1/2) + y_offset,
                  z := ((p.1 / 4 : Nat) : Rat) * 3 - 3 },
      size := { x := 1, y := 3/5, z := 1 },
      color := color_for_element_type "FOOTING",
      highlighted := sel = some p.2.product.id })

/-- Pipe emission loop (thin horizontal boxes). -/
def pipe_items (pipes : List IfcPipeSegment) (sel : Option EntityId) : List EmitItem :=
  pipes.enum.map (fun p =>
    { id := p.2.product.id, element_type := "Pipe",
      name := p.2.product.name.getD "Pipe", global_id := p.2.product.global_id,
      center := { x := 0,
                  y := 5/2 + ((p.1 / 3 : Nat) : Rat) * (3/10) + y_offset,
                  z := ((p.1 % 3 : Nat) : Rat) * 2 - 2 },
      size := { x := 8, y := 1/10, z := 1/10 },
      color := color_for_element_type "PIPE",
      highlighted := sel = some p.2.product.id })

/-- Duct emission loop. -/
def duct_items (ducts : List IfcDuctSegment) (sel : Option EntityId) : List EmitItem :=
  ducts.enum.map (fun p =>
    { id := p.2.product.id, element_type := "Duct",
      name := p.2.product.name.getD "Duct", global_id := p.2.product.global_id,
      center := { x := 0, y := 27/10 + y_offset,
                  z := ((p.1 % 2 : Nat) : Rat) * 4 - 2 },
      size := { x := 8, y := 2/5, z := 3/5 },
      color := color_for_element_type "DUCT",
      highlighted := sel = some p.2.product.id })

/-- Flow-terminal emission loop (small square vents). -/
def flow_terminal_items (terminals : List IfcFlowTerminal) (sel : Option EntityId) :
    List EmitItem :=
  terminals.enum.map (fun p =>
    { id := p.2.product.id, element_type := "FlowTerminal",
      name := p.2.product.name.getD "Vent", global_id := p.2.product.global_id,
      center := { x := ((p.1 % 4 : Nat) : Rat) * (5/2) - 15/4, y := 29/10 + y_offset,
                  z := ((p.1 / 4 : Nat) : Rat) * 3 - 3/2 },
      size := { x := 2/5, y := 1/10, z := 2/5 },
      color := color_for_element_type "FLOWTERMINAL",
      highlighted := sel = some p.2.product.id })

/-- Cable-carrier emission loop (cable trays). -/
def cable_carrier_items (carriers : List IfcCableCarrierSegment) (sel : Option EntityId) :
    List EmitItem :=
  carriers.enum.map (fun p =>
    { id := p.2.product.id, element_type := "CableCarrier",
      name := p.2.product.name.getD "Cable Tray", global_id := p.2.product.global_id,
      center := { x := 0, y := 14/5 + ((p.1 / 2 : Nat) : Rat) * (1/5) + y_offset,
                  z := ((p.1 % 2 : Nat) : Rat) * 6 - 3 },
      size := { x := 8, y := 2/25, z := 3/20 },
      color := color_for_element_type "CABLE",
      highlighted := sel = some p.2.product.id })

/-- Proxy emission loop (small generic cubes). -/
def proxy_items (proxies : List IfcBuildingElementProxy) (sel : Option EntityId) :
    List EmitItem :=
  proxies.enum.map (fun p =>
    { id := p.2.product.id, element_type := "Proxy",
      name := p.2.product.name.getD "Element", global_id := p.2.product.global_id,
      center := { x := ((p.1 % 3 : Nat) : Rat) * 2 - 2, y := 1 + y_offset,
                  z := ((p.1 / 3 : Nat) : Rat) * 2 - 2 },
      size := { x := 1/2, y := 1/2, z := 1/2 },
      color := color_for_element_type "PROXY",
      highlighted := sel = some p.2.product.id })

/-- The default building shell of `generate_meshes` (center, size, color
key, name); ids are the shell indices and global ids `default_<i>`. -/
def default_shell_data : List (P3 × P3 × String × String × String) :=
  [({ x := 0, y := 0, z := 0 }, { x := 10, y := 3/10, z := 8 }, "SLAB", "Floor", "Slab"),
   ({ x := -(49/10), y := 3/2, z := 0 }, { x := 1/5, y := 3, z := 8 }, "WALL", "Left Wall", "Wall"),
   ({ x := 49/10, y := 3/2, z := 0 }, { x := 1/5, y := 3, z := 8 }, "WALL", "Right Wall", "Wall"),
   ({ x := 0, y := 3/2, z := -(39/10) }, { x := 10, y := 3, z := 1/5 }, "WALL", "Back Wall", "Wall"),
   ({ x := 0, y := 3/2, z := 39/10 }, { x := 10, y := 3, z := 1/5 }, "WALL", "Front Wall", "Wall"),
   ({ x := 0, y := 63/20, z := 0 }, { x := 10, y := 3/10, z := 8 }, "ROOF", "Roof", "Roof")]

/-- Shell items of the unfiltered `generate_meshes`: the `element_type`
recorded is the upper-case color key. -/
def default_shell_items : List EmitItem :=
  default_shell_data.enum.map (fun p =>
    { id := (p.1 : Int), element_type := p.2.2.2.1,
      name := p.2.2.2.2.1, global_id := "default_" ++ toString p.1,
      center := p.2.1, size := p.2.2.1,
      color := color_for_element_type p.2.2.2.1,
      highlighted := false })

/-- Shell items of `generate_meshes_filtered`: each piece is subject to the
hidden-type filter under its title-case type name, which is also the
recorded `element_type`; the piece index can be highlighted. -/
def default_shell_items_filtered (hidden_types : List String) (sel : Option EntityId) :
    List EmitItem :=
  (default_shell_data.enum.filter (fun p => ¬ hidden_types.contains p.2.2.2.2.2)).map
    (fun p =>
      { id := (p.1 : Int), element_type := p.2.2.2.2.2,
        name := p.2.2.2.2.1, global_id := "default_" ++ toString p.1,
        center := p.2.1, size := p.2.2.1,
        color := color_for_element_type p.2.2.2.1,
        highlighted := sel = some (p.1 : Int) })

/-- All items of `generate_meshes`, in the exact kind order of the source
(no visibility filter, no highlight). -/
def full_items (m : BimModel) : List EmitItem :=
  wall_items m.walls none ++ slab_items m.slabs none ++
  column_items m.columns none ++ beam_items m.beams none ++
  door_items m.doors none ++ window_items m.windows none ++
  roof_items m.roofs none ++ stair_items m.stairs none ++
  footing_items m.footings none ++ pipe_items m.pipes none ++
  duct_items m.ducts none ++ flow_terminal_items m.flow_terminals none ++
  cable_carrier_items m.cable_carriers none ++ proxy_items m.proxies none

/-- `BimModel::generate_meshes`: emit all kinds; fall back to the default
shell when no element was emitted. -/
def BimModel.generate_meshes (m : BimModel) : ModelMesh :=
  let items := full_items m
  assemble (if items.isEmpty then default_shell_items else items)

/-- All items of `generate_meshes_filtered`: only walls, slabs, columns,
beams, doors and windows are emitted, each kind subject to the hidden-type
filter. -/
def filtered_items (m : BimModel) (hidden_types : List String)
    (sel : Option EntityId) : List EmitItem :=
  (if hidden_types.contains "Wall" then [] else wall_items m.walls sel) ++
  (if hidden_types.contains "Slab" then [] else slab_items m.slabs sel) ++
  (if hidden_types.contains "Column" then [] else column_items m.columns sel) ++
  (if hidden_types.contains "Beam" then [] else beam_items m.beams sel) ++
  (if hidden_types.contains "Door" then [] else door_items m.doors sel) ++
  (if hidden_types.contains "Window" then [] else window_items m.windows sel)

/-- `BimModel::generate_meshes_filtered`. -/
def BimModel.generate_meshes_filtered (m : BimModel) (hidden_types : List String)
    (selected_id : Option EntityId) : ModelMesh :=
  let items := filtered_items m hidden_types selected_id
  assemble (if items.isEmpty then default_shell_items_filtered hidden_types selected_id
            else items)

/-- `BimModel::get_bounds`. -/
def BimModel.get_bounds (m : BimModel) : Option BoundingBox :=
  m.generate_meshes.bounds

/-- `BimModel::get_element_info`. -/
def BimModel.get_element_info (m : BimModel) (element_id : EntityId) :
    Option ElementInfo :=
  m.generate_meshes.elements.find? (fun e => e.id = element_id)

/-- `generate_grid_lines`: heuristic placeholder lines from axis membership
and the model bounds (see model.rs). -/
def generate_grid_lines (m : BimModel) : List GridLine :=
  let bounds := m.get_bounds
  let ext : Rat × Rat × Rat × Rat :=
    match bounds with
    | some b => (b.min.x, b.max.x, b.min.y, b.max.y)
    | none => (-20, 20, -20, 20)
  let min_x := ext.1
  let max_x := ext.2.1
  let min_y := ext.2.2.1
  let max_y := ext.2.2.2
  let z : Rat := 0
  let margin : Rat := 5
  let axis_lines : List GridLine :=
    m.grid_axes.enum.map (fun p =>
      let is_u_axis := m.grids.any (fun g => g.u_axes.contains p.2.id)
      let spacing : Rat := 6
      let position := (p.1 : Rat) * spacing
      if is_u_axis then
        { tag := p.2.axis_tag,
          start := { x := min_x - margin, y := position, z := z },
          stop := { x := max_x + margin, y := position, z := z },
          is_u_axis := true }
      else
        { tag := p.2.axis_tag,
          start := { x := position, y := min_y - margin, z := z },
          stop := { x := position, y := max_y + margin, z := z },
          is_u_axis := false })
  if axis_lines.isEmpty then
    match bounds with
    | some b =>
      let span_x := b.max.x - b.min.x
      let span_y := b.max.y - b.min.y
      let xs : List GridLine := ["A", "B", "C", "D"].enum.map (fun p =>
        let x := b.min.x + span_x * (p.1 : Rat) / 3
        { tag := p.2, start := { x := x, y := b.min.y - margin, z := z },
          stop := { x := x, y := b.max.y + margin, z := z },
          is_u_axis := false })
      let ys : List GridLine := ["1", "2", "3", "4"].enum.map (fun p =>
        let y := b.min.y + span_y * (p.1 : Rat) / 3
        { tag := p.2, start := { x := b.min.x - margin, y := y, z := z },
          stop := { x := b.max.x + margin, y := y, z := z },
          is_u_axis := true })
      xs ++ ys
    | none => axis_lines
  else axis_lines

/-- The extraction pipeline of `BimModel::from_ifc_file`: extract every
collection, synthesize grid lines, and recompute `element_count` as the sum
of the fourteen non-grid element collections. -/
def extracted_model (f : IfcFile) : BimModel :=
  let m : BimModel :=
    { BimModel.new with
      project := extract_project f,
      site := extract_site f,
      building := extract_building f,
      storeys := extract_storeys f,
      walls := extract_walls f,
      slabs := extract_slabs f,
      doors := extract_doors f,
      windows := extract_windows f,
      roofs := extract_roofs f,
      stairs := extract_stairs f,
      columns := extract_columns f,
      beams := extract_beams f,
      footings := extract_footings f,
      pipes := extract_pipes f,
      ducts := extract_ducts f,
      flow_terminals := extract_flow_terminals f,
      cable_carriers := extract_cable_carriers f,
      proxies := extract_proxies f }
  let m := { m with grid_lines := generate_grid_lines m }
  { m with element_count :=
    m.walls.length + m.slabs.length + m.columns.length + m.beams.length +
    m.doors.length + m.windows.length + m.roofs.length + m.stairs.length +
    m.footings.length + m.pipes.length + m.ducts.length +
    m.flow_terminals.length + m.cable_carriers.length + m.proxies.length }

/-- `BimModel::from_ifc_file` (the extraction itself never fails). -/
def BimModel.from_ifc_file (f : IfcFile) : Except String BimModel :=
  Except.ok (extracted_model f)

/-! ## Model registry (src/rust/src/bim/model_registry.rs)

`ModelId` is a string; the `HashMap<ModelId, RegisteredModel>` is modelled
as a key-unique association list, and `keys().next()` as the head of that
list (one concrete refinement of the unspecified iteration order). -/

abbrev ModelId := String

/-- `RegisteredModel`. -/
structure RegisteredModel where
  model : BimModel
  name : String
  file_path : Option String
  visible : Bool
  transform : List Rat
  bounds : Option BoundingBox
deriving DecidableEq, Repr

/-- `identity_matrix` (column-major 4×4). -/
def identity_matrix : List Rat :=
  [1, 0, 0, 0, 0, 1, 0, 0, 0, 0, 1, 0, 0, 0, 0, 1]

/-- `RegisteredModel::new`: visible, identity transform, no cached bounds. -/
def RegisteredModel.new (model : BimModel) (name : String)
    (file_path : Option String) : RegisteredModel :=
  { model := model, name := name, file_path := file_path, visible := true,
    transform := identity_matrix, bounds := none }

/-- `ModelRegistry`. -/
structure ModelRegistry where
  models : List (ModelId × RegisteredModel)
  primary_model : Option ModelId
  next_id : Nat
deriving DecidableEq, Repr

namespace ModelRegistry

/-- `ModelRegistry::new`. -/
def new : ModelRegistry := { models := [], primary_model := none, next_id := 1 }

/-- Association-list insertion with `HashMap` semantics: replace an existing
binding in place, otherwise append. -/
def regInsert (models : List (ModelId × RegisteredModel)) (k : ModelId)
    (v : RegisteredModel) : List (ModelId × RegisteredModel) :=
  if models.any (fun p => p.1 = k) then
    models.map (fun p => if p.1 = k then (k, v) else p)
  else models ++ [(k, v)]

/-- `generate_id`: `model_<next_id>`, incrementing the counter. -/
def generate_id (r : ModelRegistry) : ModelId × ModelRegistry :=
  ("model_" ++ toString r.next_id, { r with next_id := r.next_id + 1 })

/-- `add_model`: fresh sequential id; the first model becomes primary. -/
def add_model (r : ModelRegistry) (model : BimModel) (name : String)
    (file_path : Option String) : ModelId × ModelRegistry :=
  let (id, r) := r.generate_id
  let registered := RegisteredModel.new model name file_path
  let r :=
    if r.models.isEmpty then { r with primary_model := some id } else r
  (id, { r with models := regInsert r.models id registered })

/-- `add_model_with_id`: caller-supplied id, silently overwriting. -/
def add_model_with_id (r : ModelRegistry) (id : ModelId) (model : BimModel)
    (name : String) (file_path : Option String) : ModelId × ModelRegistry :=
  let registered := RegisteredModel.new model name file_path
  let r :=
    if r.models.isEmpty then { r with primary_model := some id } else r
  (id, { r with models := regInsert r.models id registered })

/-- `remove_model`: drop the binding; if the removed id was primary, the
primary becomes the first remaining key (or `None`). -/
def remove_model (r : ModelRegistry) (id : ModelId) :
    Option RegisteredModel × ModelRegistry :=
  let removed := (r.models.find? (fun p => p.1 = id)).map Prod.snd
  let models := r.models.filter (fun p => p.1 ≠ id)
  let primary_model :=
    if r.primary_model = some id then (models.head?.map Prod.fst)
    else r.primary_model
  (removed, { r with models := models, primary_model := primary_model })

/-- `get_model`. -/
def get_model (r : ModelRegistry) (id : ModelId) : Option RegisteredModel :=
  (r.models.find? (fun p => p.1 = id)).map Prod.snd

/-- `get_primary_model_id`. -/
def get_primary_model_id (r : ModelRegistry) : Option ModelId :=
  r.primary_model

/-- `set_primary_model`: fails with not-found if the id is absent. -/
def set_primary_model (r : ModelRegistry) (id : ModelId) :
    Except String ModelRegistry :=
  if r.models.any (fun p => p.1 = id) then
    Except.ok { r with primary_model := some id }
  else Except.error ("Model " ++ id ++ " not found")

/-- `set_model_visible`: fails with not-found if the id is absent. -/
def set_model_visible (r : ModelRegistry) (id : ModelId) (visible : Bool) :
    Except String ModelRegistry :=
  if r.models.any (fun p => p.1 = id) then
    let models := r.models.map
      (fun p => if p.1 = id then (p.1, { p.2 with visible := visible }) else p)
    Except.ok { r with models := models }
  else Except.error ("Model " ++ id ++ " not found")

/-- `is_model_visible`. -/
def is_model_visible (r : ModelRegistry) (id : ModelId) : Option Bool :=
  (r.get_model id).map RegisteredModel.visible

/-- `model_count`. -/
def model_count (r : ModelRegistry) : Nat := r.models.length

/-- `has_model`. -/
def has_model (r : ModelRegistry) (id : ModelId) : Bool :=
  r.models.any (fun p => p.1 = id)

/-- `clear`: empty the map and reset the primary. -/
def clear (r : ModelRegistry) : ModelRegistry :=
  { r with models := [], primary_model := none }

/-- One model of the `get_combined_bounds` loop: a visible model with
cached bounds is folded into the running union; everything else is
skipped. -/
def combinedStep (combined : Option BoundingBox) (p : ModelId × RegisteredModel) :
    Option BoundingBox :=
  if p.2.visible then
    match p.2.bounds with
    | some bounds =>
      match combined with
      | none => some bounds
      | some existing => some (existing.union bounds)
    | none => combined
  else combined

/-- `get_combined_bounds`: union of the cached bounds of every visible
model. -/
def get_combined_bounds (r : ModelRegistry) : Option BoundingBox :=
  r.models.foldl combinedStep none

/-- `list_visible_models`. -/
def list_visible_models (r : ModelRegistry) : List ModelId :=
  (r.models.filter (fun p => p.2.visible)).map Prod.fst

end ModelRegistry

/-! ## Picking (src/rust/src/renderer/camera.rs)

`ray_aabb_intersect` divides by direction components without a zero guard;
IEEE semantics produce infinities and possibly NaN (`0 * inf`).  `f32`
values are modelled by the extended type `XR` (finite rationals plus the
two infinities and NaN) with Rust `f32::min`/`f32::max`/`<` semantics. -/

/-- Extended `f32` value: NaN, `-inf`, finite, `+inf`. -/
inductive XR where
  | nan : XR
  | negInf : XR
  | fin : Rat → XR
  | posInf : XR
deriving DecidableEq, Repr

/-- `1.0 / d` for a finite `d`; division by (positive) zero gives `+inf`. -/
def recipOf (d : Rat) : XR :=
  if d = 0 then XR.posInf else XR.fin (1 / d)

/-- Product of a finite factor with an extended reciprocal; `0 * inf` is
NaN. -/
def xmulFin (q : Rat) : XR → XR
  | XR.nan => XR.nan
  | XR.fin r => XR.fin (q * r)
  | XR.posInf =>
    if 0 < q then XR.posInf else if q < 0 then XR.negInf else XR.nan
  | XR.negInf =>
    if 0 < q then XR.negInf else if q < 0 then XR.posInf else XR.nan

/-- Rust `f32::min`: if one argument is NaN the other is returned. -/
def xmin : XR → XR → XR
  | XR.nan, b => b
  | a, XR.nan => a
  | XR.negInf, _ => XR.negInf
  | _, XR.negInf => XR.negInf
  | XR.posInf, b => b
  | a, XR.posInf => a
  | XR.fin q, XR.fin r => XR.fin (Min.min q r)

/-- Rust `f32::max`: if one argument is NaN the other is returned. -/
def xmax : XR → XR → XR
  | XR.nan, b => b
  | a, XR.nan => a
  | XR.posInf, _ => XR.posInf
  | _, XR.posInf => XR.posInf
  | XR.negInf, b => b
  | a, XR.negInf => a
  | XR.fin q, XR.fin r => XR.fin (Max.max q r)

/-- IEEE `<`: false whenever either side is NaN. -/
def xlt : XR → XR → Bool
  | XR.nan, _ => false
  | _, XR.nan => false
  | XR.negInf, XR.negInf => false
  | XR.negInf, _ => true
  | _, XR.negInf => false
  | XR.posInf, _ => false
  | _, XR.posInf => true
  | XR.fin q, XR.fin r => q < r

/-- `ray_aabb_intersect` (slab method, no divide-by-zero guard). -/
def ray_aabb_intersect (ray_origin ray_dir box_min box_max : P3) : Option XR :=
  let inv_x := recipOf ray_dir.x
  let inv_y := recipOf ray_dir.y
  let inv_z := recipOf ray_dir.z
  let t1 := xmulFin (box_min.x - ray_origin.x) inv_x
  let t2 := xmulFin (box_max.x - ray_origin.x) inv_x
  let t3 := xmulFin (box_min.y - ray_origin.y) inv_y
  let t4 := xmulFin (box_max.y - ray_origin.y) inv_y
  let t5 := xmulFin (box_min.z - ray_origin.z) inv_z
  let t6 := xmulFin (box_max.z - ray_origin.z) inv_z
  let tmin := xmax (xmax (xmin t1 t2) (xmin t3 t4)) (xmin t5 t6)
  let tmax := xmin (xmin (xmax t1 t2) (xmax t3 t4)) (xmax t5 t6)
  if xlt tmax (XR.fin 0) || xlt tmax tmin then none
  else some (if xlt tmin (XR.fin 0) then tmax else tmin)

/-- Membership of parameter `t` in all three closed axis slabs of the box:
the point `origin + t * dir` lies within the box on every axis. -/
def slabMem (ray_origin ray_dir box_min box_max : P3) (t : Rat) : Prop :=
  (box_min.x ≤ ray_origin.x + t * ray_dir.x ∧
    ray_origin.x + t * ray_dir.x ≤ box_max.x) ∧
  (box_min.y ≤ ray_origin.y + t * ray_dir.y ∧
    ray_origin.y + t * ray_dir.y ≤ box_max.y) ∧
  (box_min.z ≤ ray_origin.z + t * ray_dir.z ∧
    ray_origin.z + t * ray_dir.z ≤ box_max.z)

instance (o d bmin bmax : P3) (t : Rat) : Decidable (slabMem o d bmin bmax t) := by
  unfold slabMem; infer_instance

/-- `r` is a boundary of the slab-intersection interval: a member below or
above every member. -/
def slabEndpoint (o d bmin bmax : P3) (r : Rat) : Prop :=
  slabMem o d bmin bmax r ∧
    ((∀ t, slabMem o d bmin bmax t → r ≤ t) ∨
     (∀ t, slabMem o d bmin bmax t → t ≤ r))

/-- Non-NaN extended values, as the linear order `WithBot (WithTop Rat)`. -/
def toE : XR → WithBot (WithTop Rat)
  | XR.nan => ⊥
  | XR.negInf => ⊥
  | XR.fin q => ((q : WithTop Rat) : WithBot (WithTop Rat))
  | XR.posInf => ((⊤ : WithTop Rat) : WithBot (WithTop Rat))

/-- Embedding of a rational into `WithBot (WithTop Rat)`. -/
def emb (t : Rat) : WithBot (WithTop Rat) :=
  ((t : WithTop Rat) : WithBot (WithTop Rat))

/-! ## Statement-support definitions -/

/-- The entity-instance list produced inside a `parse_ifc_file` run (the
data-section contents before they are collected into the entity map). -/
def parsed_data_entities (input : List Char) : Option (List IfcEntity) := do
  let fuel := input.length + 1
  let input ← parse_iso_header input
  let (_, input) ← parse_header_section input
  let (entities, _) ← parse_data_section fuel input
  some entities

/-- Registry states reachable from the empty registry by the public
mutating operations. -/
inductive Reachable : ModelRegistry → Prop where
  | empty : Reachable ModelRegistry.new
  | add (r : ModelRegistry) (model : BimModel) (name : String)
      (file_path : Option String) : Reachable r →
      Reachable (r.add_model model name file_path).2
  | add_with_id (r : ModelRegistry) (id : ModelId) (model : BimModel)
      (name : String) (file_path : Option String) : Reachable r →
      Reachable (r.add_model_with_id id model name file_path).2
  | remove (r : ModelRegistry) (id : ModelId) : Reachable r →
      Reachable (r.remove_model id).2
  | set_primary (r r2 : ModelRegistry) (id : ModelId) : Reachable r →
      r.set_primary_model id = Except.ok r2 → Reachable r2
  | set_visible (r r2 : ModelRegistry) (id : ModelId) (v : Bool) : Reachable r →
      r.set_model_visible id v = Except.ok r2 → Reachable r2
  | clear (r : ModelRegistry) : Reachable r → Reachable r.clear

/-- The cached bounds of the visible models, in map order. -/
def visBoxes (r : ModelRegistry) : List BoundingBox :=
  (r.models.filter (fun p => p.2.visible)).filterMap (fun p => p.2.bounds)

/-- Folding one box into an optional running union. -/
def boxStep (acc : Option BoundingBox) (bb : BoundingBox) : Option BoundingBox :=
  match acc with
  | none => some bb
  | some existing => some (existing.union bb)

/-- Box containment: `a` lies inside `b`. -/
def boxLE (a b : BoundingBox) : Prop :=
  b.min.x ≤ a.min.x ∧ b.min.y ≤ a.min.y ∧ b.min.z ≤ a.min.z ∧
  a.max.x ≤ b.max.x ∧ a.max.y ≤ b.max.y ∧ a.max.z ≤ b.max.z

/-- Contiguous slice of a flat buffer. -/
def sliceQ (start len : Nat) (l : List Rat) : List Rat :=
  (l.drop start).take len

/-- Contiguous slice of an index buffer. -/
def sliceN (start len : Nat) (l : List Nat) : List Nat :=
  (l.drop start).take len

/-- Undo a modular `u32` offset: maps `(x + off) % 2^32` back to `x` for
`x < 2^32`. -/
def demod (off x : Nat) : Nat :=
  (x + (U32 - off % U32)) % U32

/-- An element record with its triangle range position erased: everything
the claim calls the element's own data. -/
structure ElemView where
  id : EntityId
  element_type : String
  name : String
  global_id : String
  bounds : BoundingBox
  triangle_count : Nat
deriving DecidableEq, Repr

/-- Forget `triangle_start`. -/
def stripStart (e : ElementInfo) : ElemView :=
  { id := e.id, element_type := e.element_type, name := e.name,
    global_id := e.global_id, bounds := e.bounds,
    triangle_count := e.triangle_count }

/-- The per-element content of a `ModelMesh` at element position `k`: the
stripped element record, its 24-vertex coordinate/normal/color slices, and
its 36 triangle indices rebased to the element's own vertex block. -/
def elemRecord (mm : ModelMesh) (k : Nat) (e : ElementInfo) :
    ElemView × List Rat × List Rat × List Rat × List Nat :=
  (stripStart e, sliceQ (72 * k) 72 mm.vertices, sliceQ (72 * k) 72 mm.normals,
   sliceQ (96 * k) 96 mm.colors, (sliceN (36 * k) 36 mm.indices).map (demod (24 * k)))

/-- All per-element contents of a mesh, in element order. -/
def extractAll (mm : ModelMesh) : List (ElemView × List Rat × List Rat × List Rat × List Nat) :=
  mm.elements.enum.map (fun p => elemRecord mm p.1 p.2)

/-- Color slice of element position `k` (24 RGBA quads). -/
def colorSlice (mm : ModelMesh) (k : Nat) : List Rat :=
  sliceQ (96 * k) 96 mm.colors

/-- `n` flattened copies of one RGBA quad. -/
def quadFlat (c : RGBA) (n : Nat) : List Rat :=
  (List.replicate n [c.r, c.g, c.b, c.a]).flatten

/-! ### Concrete inputs used by counterexamples and witnesses -/

/-- A DATA section with two well-formed instances sharing the id `#1`. -/
def dupIdInput : List Char :=
  ("ISO-10303-21;HEADER;ENDSEC;DATA;#1=IFCWALL();#1=IFCWALL();ENDSEC;" ++
    "END-ISO-10303-21;").toList

/-- A DATA section with two well-formed instances with distinct ids. -/
def twoIdInput : List Char :=
  ("ISO-10303-21;HEADER;ENDSEC;DATA;#1=IFCWALL();#2=IFCSLAB();ENDSEC;" ++
    "END-ISO-10303-21;").toList

/-- The two entity instances the data section of `twoIdInput` contains. -/
def twoIdEnts : List IfcEntity :=
  [{ id := 1, entity_type := "IFCWALL", attributes := [] },
   { id := 2, entity_type := "IFCSLAB", attributes := [] }]

/-- The file `twoIdInput` parses to. -/
def twoIdFile : IfcFile :=
  { header := IfcHeader.default, entities := collectEntities twoIdEnts }

/-- A file whose only entity is a building storey. -/
def storeyFile : IfcFile :=
  { header := IfcHeader.default,
    entities := [(1, { id := 1, entity_type := "IFCBUILDINGSTOREY",
                       attributes := [] })] }

/-- A product with a given id. -/
def sampleProduct (id : EntityId) : IfcProduct :=
  { id := id, global_id := "gid", name := some "elem", description := none,
    object_type := none, properties := [] }

/-- A model containing exactly one roof. -/
def roofOnlyModel : BimModel :=
  { BimModel.new with
    roofs := [{ product := sampleProduct 7, predefined_type := none }],
    element_count := 1 }

/-- A model containing one wall and one slab. -/
def wallSlabModel : BimModel :=
  { BimModel.new with
    walls := [{ product := sampleProduct 1, predefined_type := none }],
    slabs := [{ product := sampleProduct 2, predefined_type := none }],
    element_count := 2 }

/-- The unit box `[0,1]^3`. -/
def box01 : BoundingBox :=
  { min := { x := 0, y := 0, z := 0 }, max := { x := 1, y := 1, z := 1 } }

/-- The box `[2,3]^3`. -/
def box23 : BoundingBox :=
  { min := { x := 2, y := 2, z := 2 }, max := { x := 3, y := 3, z := 3 } }

/-- A registry with two visible models whose cached bounds are `[0,1]^3`
and `[2,3]^3`. -/
def regTwo : ModelRegistry :=
  { models :=
      [("model_1", { RegisteredModel.new BimModel.new "A" none with bounds := some box01 }),
       ("model_2", { RegisteredModel.new BimModel.new "B" none with bounds := some box23 })],
    primary_model := some "model_1", next_id := 3 }

/-- The model extracted from `storeyFile` (the extraction never fails). -/
def storeyModel : BimModel :=
  extracted_model storeyFile

/-- A one-step registry: one model added to the empty registry. -/
def regOne : ModelRegistry :=
  (ModelRegistry.new.add_model BimModel.new "A" none).2

/-- Re-mark an emission item against a highlighted id: only the
`highlighted` flag changes. -/
def markSel (h : EntityId) (it : EmitItem) : EmitItem :=
  { it with highlighted := some h = some it.id }

/-- The index block a mesh contributes when merged after `k` 24-vertex
meshes (`u32` offset arithmetic). -/
def offsetIndices (k : Nat) (m : Mesh) : List Nat :=
  m.indices.map (fun idx => (idx + (24 * k) % U32) % U32)

/-- Offset index blocks of a mesh list starting at position `k`. -/
def offsetRows : Nat → List Mesh → List (List Nat)
  | _, [] => []
  | k, m :: rest => offsetIndices k m :: offsetRows (k + 1) rest

/-- The local (per-box) index pattern: six quads over 24 vertices. -/
def localBoxIdx : List Nat :=
  [0, 1, 2, 2, 3, 0, 4, 5, 6, 6, 7, 4, 8, 9, 10, 10, 11, 8,
   12, 13, 14, 14, 15, 12, 16, 17, 18, 18, 19, 16, 20, 21, 22, 22, 23, 20]

/-- The per-element content an emission item contributes to the mesh. -/
def itemView (it : EmitItem) : ElemView × List Rat × List Rat × List Rat × List Nat :=
  ({ id := it.id, element_type := it.element_type, name := it.name,
     global_id := it.global_id, bounds := itemBounds it, triangle_count := 12 },
   (meshOfItem it).vertices, (meshOfItem it).normals, (meshOfItem it).colors,
   localBoxIdx)

/-! ## Theorems -/

/-- C1 (counterexample): contrary to the claim, the input `123` does not
decode to `IfcValue.Integer 123`: `parse_value` tries the real-number rule
(whose fractional part and exponent are both optional) before the integer
rule, so `123` decodes to `IfcValue.Real 123`. -/
theorem parse_value_123_not_integer :
    parse_value ("123".toList.length + 1) "123".toList =
      some (IfcValue.Real 123, []) ∧
    parse_value ("123".toList.length + 1) "123".toList ≠
      some (IfcValue.Integer 123, []) := by
  have h : parse_value ("123".toList.length + 1) "123".toList =
      some (IfcValue.Real 123, []) := by with_unfolding_all rfl
  refine ⟨h, ?_⟩
  rw [h]
  intro hc
  simp at hc

/-- C1 (amended): `"1.5E-3"` decodes to the real `0.0015` and `"-0.5"` to
the real `-0.5`, as claimed; `"123"` decodes to the real `123.0` (not the
integer `123`), because the real-number alternative, tried first, also
accepts a plain digit string. -/
theorem parse_value_numeric_literals :
    parse_value ("123".toList.length + 1) "123".toList =
      some (IfcValue.Real 123, []) ∧
    parse_value ("1.5E-3".toList.length + 1) "1.5E-3".toList =
      some (IfcValue.Real (3/2000), []) ∧
    parse_value ("-0.5".toList.length + 1) "-0.5".toList =
      some (IfcValue.Real (-(1/2)), []) := by
  refine ⟨?_, ?_, ?_⟩ <;> with_unfolding_all rfl

/-- C8: `.T.` and `.F.` decode to the booleans `true`/`false` and never to
the enumerations `T`/`F`, because the boolean alternative is tried before
the enumeration alternative. -/
theorem parse_value_boolean_tokens :
    parse_value (".T.".toList.length + 1) ".T.".toList =
      some (IfcValue.Boolean true, []) ∧
    parse_value (".F.".toList.length + 1) ".F.".toList =
      some (IfcValue.Boolean false, []) ∧
    parse_value (".T.".toList.length + 1) ".T.".toList ≠
      some (IfcValue.Enum "T", []) ∧
    parse_value (".F.".toList.length + 1) ".F.".toList ≠
      some (IfcValue.Enum "F", []) := by
  have hT : parse_value (".T.".toList.length + 1) ".T.".toList =
      some (IfcValue.Boolean true, []) := by with_unfolding_all rfl
  have hF : parse_value (".F.".toList.length + 1) ".F.".toList =
      some (IfcValue.Boolean false, []) := by with_unfolding_all rfl
  refine ⟨hT, hF, ?_, ?_⟩
  · rw [hT]; intro hc; simp at hc
  · rw [hF]; intro hc; simp at hc

/-- C10: for every parsed file, `get_info` reports `total_entities` equal to
the model's `element_count`, which is the sum of the fourteen typed element
collections; on a file whose single entity is a storey the count is `0`,
not the parsed file's entity count `1` — storeys (and grids) are
excluded. -/
theorem get_info_total_entities :
    (∀ f m, BimModel.from_ifc_file f = Except.ok m →
      m.get_info.stats.total_entities = m.element_count ∧
      m.get_info.stats.total_entities =
        m.walls.length + m.slabs.length + m.columns.length + m.beams.length +
        m.doors.length + m.windows.length + m.roofs.length + m.stairs.length +
        m.footings.length + m.pipes.length + m.ducts.length +
        m.flow_terminals.length + m.cable_carriers.length + m.proxies.length) ∧
    (BimModel.from_ifc_file storeyFile = Except.ok storeyModel ∧
      storeyModel.get_info.stats.total_entities = 0 ∧
      storeyModel.storeys.length = 1 ∧
      storeyFile.entity_count = 1) := by
  constructor
  · intro f m h
    have hm : m = extracted_model f := by
      have := h.symm
      rwa [BimModel.from_ifc_file, Except.ok.injEq] at this
    subst hm
    exact ⟨rfl, rfl⟩
  · exact ⟨rfl, rfl, rfl, rfl⟩

/-- C10 (witness): the universal part applied to the concrete storey
file. -/
theorem get_info_total_entities_witness :
    storeyModel.get_info.stats.total_entities = storeyModel.element_count :=
  (get_info_total_entities.1 storeyFile storeyModel
    (by with_unfolding_all rfl)).1

/-! ### Registry helper lemmas -/

theorem regInsert_ne_nil (l : List (ModelId × RegisteredModel)) (k : ModelId)
    (v : RegisteredModel) : ModelRegistry.regInsert l k v ≠ [] := by
  unfold ModelRegistry.regInsert
  split
  · rename_i h
    cases l with
    | nil => simp at h
    | cons a t => simp
  · simp

theorem regInsert_keys_sup (l : List (ModelId × RegisteredModel)) (k : ModelId)
    (v : RegisteredModel) (a : ModelId) (ha : a ∈ l.map Prod.fst) :
    a ∈ (ModelRegistry.regInsert l k v).map Prod.fst := by
  unfold ModelRegistry.regInsert
  split
  · have : (l.map (fun p => if p.1 = k then (k, v) else p)).map Prod.fst =
        l.map Prod.fst := by
      rw [List.map_map]
      apply List.map_congr_left
      intro p _
      by_cases hp : p.1 = k
      · simp [hp]
      · simp [hp]
    rw [this]
    exact ha
  · simp only [List.map_append]
    exact List.mem_append_left _ ha

theorem filter_keys_mem (l : List (ModelId × RegisteredModel)) (id a : ModelId)
    (ha : a ∈ l.map Prod.fst) (hne : a ≠ id) :
    a ∈ (l.filter (fun p => p.1 ≠ id)).map Prod.fst := by
  rcases List.mem_map.mp ha with ⟨pair, hmem, hfst⟩
  apply List.mem_map.mpr
  refine ⟨pair, ?_, hfst⟩
  apply List.mem_filter.mpr
  refine ⟨hmem, ?_⟩
  simp only [decide_eq_true_eq]
  rw [hfst]
  exact hne

theorem add_model_models (r : ModelRegistry) (model : BimModel) (name : String)
    (fp : Option String) :
    ((r.add_model model name fp).2).models =
      ModelRegistry.regInsert r.models ("model_" ++ toString r.next_id)
        (RegisteredModel.new model name fp) := by
  dsimp only [ModelRegistry.add_model, ModelRegistry.generate_id]
  split <;> rfl

theorem add_model_primary (r : ModelRegistry) (model : BimModel) (name : String)
    (fp : Option String) :
    ((r.add_model model name fp).2).primary_model =
      (if r.models.isEmpty then some ("model_" ++ toString r.next_id)
       else r.primary_model) := by
  dsimp only [ModelRegistry.add_model, ModelRegistry.generate_id]
  split <;> rfl

theorem add_model_with_id_models (r : ModelRegistry) (id : ModelId)
    (model : BimModel) (name : String) (fp : Option String) :
    ((r.add_model_with_id id model name fp).2).models =
      ModelRegistry.regInsert r.models id (RegisteredModel.new model name fp) := by
  dsimp only [ModelRegistry.add_model_with_id]
  split <;> rfl

theorem add_model_with_id_primary (r : ModelRegistry) (id : ModelId)
    (model : BimModel) (name : String) (fp : Option String) :
    ((r.add_model_with_id id model name fp).2).primary_model =
      (if r.models.isEmpty then some id else r.primary_model) := by
  dsimp only [ModelRegistry.add_model_with_id]
  split <;> rfl

theorem remove_model_models (r : ModelRegistry) (id : ModelId) :
    ((r.remove_model id).2).models = r.models.filter (fun p => p.1 ≠ id) := rfl

theorem remove_model_primary (r : ModelRegistry) (id : ModelId) :
    ((r.remove_model id).2).primary_model =
      (if r.primary_model = some id
       then ((r.models.filter (fun p => p.1 ≠ id)).head?).map Prod.fst
       else r.primary_model) := rfl

/-- C3: in every reachable registry state, `primary_model` is `none` exactly
when the model map is empty, and whenever it is `some id` the id is a key of
the map — the invariant the claim states, preserved by add, add-with-id,
remove, set-primary, set-visible and clear. -/
theorem registry_primary_invariant :
    ∀ r : ModelRegistry, Reachable r →
      ((r.primary_model = none ↔ r.models = []) ∧
       ∀ id, r.primary_model = some id → id ∈ r.models.map Prod.fst) := by
  intro r h
  induction h with
  | empty => exact ⟨by simp [ModelRegistry.new], by simp [ModelRegistry.new]⟩
  | add r model model_name fp hr ih =>
    rw [add_model_models, add_model_primary]
    by_cases hE : r.models.isEmpty
    · have hnil : r.models = [] := by rwa [List.isEmpty_iff] at hE
      rw [if_pos hE, hnil]
      constructor
      · simp [ModelRegistry.regInsert]
      · intro id hid
        simp only [Option.some.injEq] at hid
        simp [ModelRegistry.regInsert, hid]
    · have hnotnil : r.models ≠ [] := by
        intro hc; rw [hc] at hE; simp at hE
      rw [if_neg hE]
      constructor
      · constructor
        · intro hc
          exact absurd (ih.1.mp hc) hnotnil
        · intro hc
          exact absurd hc (regInsert_ne_nil _ _ _)
      · intro id hid
        exact regInsert_keys_sup _ _ _ _ (ih.2 id hid)
  | add_with_id r id0 model model_name fp hr ih =>
    rw [add_model_with_id_models, add_model_with_id_primary]
    by_cases hE : r.models.isEmpty
    · have hnil : r.models = [] := by rwa [List.isEmpty_iff] at hE
      rw [if_pos hE, hnil]
      constructor
      · simp [ModelRegistry.regInsert]
      · intro id hid
        simp only [Option.some.injEq] at hid
        simp [ModelRegistry.regInsert, hid]
    · have hnotnil : r.models ≠ [] := by
        intro hc; rw [hc] at hE; simp at hE
      rw [if_neg hE]
      constructor
      · constructor
        · intro hc
          exact absurd (ih.1.mp hc) hnotnil
        · intro hc
          exact absurd hc (regInsert_ne_nil _ _ _)
      · intro id hid
        exact regInsert_keys_sup _ _ _ _ (ih.2 id hid)
  | remove r id0 hr ih =>
    rw [remove_model_models, remove_model_primary]
    by_cases hp : r.primary_model = some id0
    · rw [if_pos hp]
      cases hF : r.models.filter (fun p => p.1 ≠ id0) with
      | nil =>
        constructor
        · simp
        · intro id hid
          simp at hid
      | cons a t =>
        constructor
        · simp
        · intro id hid
          simp at hid
          subst hid
          simp
    · rw [if_neg hp]
      cases hpm : r.primary_model with
      | none =>
        have hnil : r.models = [] := ih.1.mp hpm
        rw [hnil]
        constructor
        · simp
        · intro id hid
          simp at hid
      | some p =>
        have hpk : p ∈ r.models.map Prod.fst := ih.2 p hpm
        have hpid : p ≠ id0 := by
          intro hc; rw [hc] at hpm; exact hp hpm
        have hmem : p ∈ (r.models.filter (fun q => q.1 ≠ id0)).map Prod.fst :=
          filter_keys_mem _ _ _ hpk hpid
        constructor
        · constructor
          · intro hc; simp at hc
          · intro hc
            rw [hc] at hmem
            simp at hmem
        · intro id hid
          simp only [Option.some.injEq] at hid
          rw [← hid]
          exact hmem
  | set_primary r r2 id0 hr h2 ih =>
    rw [ModelRegistry.set_primary_model] at h2
    split at h2
    · rename_i hany
      cases h2
      have hkey : id0 ∈ r.models.map Prod.fst := by
        rcases List.any_eq_true.mp hany with ⟨p, hmem, hdec⟩
        simp only [decide_eq_true_eq] at hdec
        exact List.mem_map.mpr ⟨p, hmem, hdec⟩
      have hnotnil : r.models ≠ [] := by
        intro hc
        rw [hc] at hkey
        simp at hkey
      constructor
      · constructor
        · intro hc; simp at hc
        · intro hc; exact absurd hc hnotnil
      · intro id hid
        simp only [Option.some.injEq] at hid
        rw [← hid]
        exact hkey
    · cases h2
  | set_visible r r2 id0 v hr h2 ih =>
    rw [ModelRegistry.set_model_visible] at h2
    split at h2
    · cases h2
      have hkeys : ((r.models.map
          (fun p => if p.1 = id0 then (p.1, { p.2 with visible := v }) else p)).map
            Prod.fst) = r.models.map Prod.fst := by
        rw [List.map_map]
        apply List.map_congr_left
        intro p _
        by_cases hp : p.1 = id0
        · simp [hp]
        · simp [hp]
      constructor
      · constructor
        · intro hc
          have hnil := ih.1.mp hc
          simp [hnil]
        · intro hc
          exact ih.1.mpr (List.map_eq_nil_iff.mp hc)
      · intro id hid
        rw [hkeys]
        exact ih.2 id hid
    · cases h2
  | clear r hr =>
    exact ⟨by simp [ModelRegistry.clear], by simp [ModelRegistry.clear]⟩

/-- C3 (witness): the invariant instantiated at a concrete reachable state
(one model added to the empty registry): the primary is the added key. -/
theorem registry_primary_invariant_witness :
    (regOne.primary_model = none ↔ regOne.models = []) ∧
    ∀ id, regOne.primary_model = some id → id ∈ regOne.models.map Prod.fst :=
  registry_primary_invariant regOne
    (Reachable.add ModelRegistry.new BimModel.new "A" none Reachable.empty)

/-! ### Combined-bounds lemmas -/

theorem boxLE_refl (a : BoundingBox) : boxLE a a := by
  unfold boxLE
  refine ⟨le_refl _, le_refl _, le_refl _, le_refl _, le_refl _, le_refl _⟩

theorem boxLE_union_left (a b : BoundingBox) : boxLE a (a.union b) := by
  unfold boxLE BoundingBox.union
  refine ⟨min_le_left _ _, min_le_left _ _, min_le_left _ _,
    le_max_left _ _, le_max_left _ _, le_max_left _ _⟩

theorem boxLE_union_right (a b : BoundingBox) : boxLE b (a.union b) := by
  unfold boxLE BoundingBox.union
  refine ⟨min_le_right _ _, min_le_right _ _, min_le_right _ _,
    le_max_right _ _, le_max_right _ _, le_max_right _ _⟩

theorem boxLE_trans (a b c : BoundingBox) (hab : boxLE a b) (hbc : boxLE b c) :
    boxLE a c := by
  unfold boxLE at *
  refine ⟨le_trans hbc.1 hab.1, le_trans hbc.2.1 hab.2.1,
    le_trans hbc.2.2.1 hab.2.2.1, le_trans hab.2.2.2.1 hbc.2.2.2.1,
    le_trans hab.2.2.2.2.1 hbc.2.2.2.2.1, le_trans hab.2.2.2.2.2 hbc.2.2.2.2.2⟩

theorem union_boxLE (a b c : BoundingBox) (ha : boxLE a c) (hb : boxLE b c) :
    boxLE (a.union b) c := by
  unfold boxLE BoundingBox.union at *
  refine ⟨le_min ha.1 hb.1, le_min ha.2.1 hb.2.1, le_min ha.2.2.1 hb.2.2.1,
    max_le ha.2.2.2.1 hb.2.2.2.1, max_le ha.2.2.2.2.1 hb.2.2.2.2.1,
    max_le ha.2.2.2.2.2 hb.2.2.2.2.2⟩

/-- The registry fold equals the box fold over the visible models' cached
bounds. -/
theorem combined_eq_boxfold (l : List (ModelId × RegisteredModel)) :
    ∀ acc : Option BoundingBox,
      l.foldl ModelRegistry.combinedStep acc =
        ((l.filter (fun p => p.2.visible)).filterMap (fun p => p.2.bounds)).foldl
          boxStep acc := by
  induction l with
  | nil => intro acc; rfl
  | cons p t ih =>
    intro acc
    by_cases hv : p.2.visible
    · cases hb : p.2.bounds with
      | none =>
        simp only [List.foldl_cons, List.filter_cons, hv, if_true,
          List.filterMap_cons, hb]
        rw [ih]
        congr 1
        simp [ModelRegistry.combinedStep, hv, hb]
      | some bb =>
        simp only [List.foldl_cons, List.filter_cons, hv, if_true,
          List.filterMap_cons, hb, List.foldl_cons]
        rw [ih]
        congr 1
        cases acc <;> simp [ModelRegistry.combinedStep, boxStep, hv, hb]
    · have hv2 : p.2.visible = false := by
        cases h : p.2.visible
        · rfl
        · exact absurd h hv
      simp only [List.foldl_cons, List.filter_cons, hv2, Bool.false_eq_true,
        if_false]
      rw [ih]
      congr 1
      simp [ModelRegistry.combinedStep, hv2]

theorem boxfold_ne_none (bl : List BoundingBox) (a : BoundingBox) :
    ∀ acc, acc = some a → bl.foldl boxStep acc ≠ none := by
  induction bl generalizing a with
  | nil => intro acc h; rw [h]; simp
  | cons bb t ih =>
    intro acc h
    rw [h]
    simp only [List.foldl_cons]
    exact ih (a.union bb) _ rfl

theorem boxfold_lub (bl : List BoundingBox) :
    ∀ (a b : BoundingBox), bl.foldl boxStep (some a) = some b →
      boxLE a b ∧ (∀ bb, bb ∈ bl → boxLE bb b) ∧
      ∀ c, boxLE a c → (∀ bb, bb ∈ bl → boxLE bb c) → boxLE b c := by
  induction bl with
  | nil =>
    intro a b h
    simp only [List.foldl_nil, Option.some.injEq] at h
    subst h
    exact ⟨boxLE_refl a, by intro bb hbb; simp at hbb,
      fun c hc _ => hc⟩
  | cons bb t ih =>
    intro a b h
    simp only [List.foldl_cons, boxStep] at h
    rcases ih (a.union bb) b h with ⟨h1, h2, h3⟩
    refine ⟨boxLE_trans _ _ _ (boxLE_union_left a bb) h1, ?_, ?_⟩
    · intro bb2 hbb2
      rcases List.mem_cons.mp hbb2 with hc | hc
      · subst hc
        exact boxLE_trans _ _ _ (boxLE_union_right a bb2) h1
      · exact h2 bb2 hc
    · intro c hac hall
      apply h3 c
      · exact union_boxLE a bb c hac (hall bb (List.mem_cons_self bb t))
      · intro bb2 hbb2
        exact hall bb2 (List.mem_cons_of_mem bb hbb2)

/-- C7: `get_combined_bounds` is `none` exactly when no visible model has
cached bounds, and otherwise returns the least box containing every visible
model's cached bounds (their union); on the concrete two-model registry the
union box is `[0,3]^3`, and hiding the second model leaves only `[0,1]^3`. -/
theorem registry_combined_bounds :
    (∀ r : ModelRegistry,
      (r.get_combined_bounds = none ↔ visBoxes r = []) ∧
      (∀ b, r.get_combined_bounds = some b →
        (∀ bb, bb ∈ visBoxes r → boxLE bb b) ∧
        (∀ c, (∀ bb, bb ∈ visBoxes r → boxLE bb c) → boxLE b c))) ∧
    regTwo.get_combined_bounds =
      some { min := { x := 0, y := 0, z := 0 },
             max := { x := 3, y := 3, z := 3 } } ∧
    (regTwo.set_model_visible "model_2" false).map ModelRegistry.get_combined_bounds =
      Except.ok (some box01) := by
  refine ⟨?_, by with_unfolding_all rfl, by with_unfolding_all rfl⟩
  intro r
  have hfold : r.get_combined_bounds = (visBoxes r).foldl boxStep none := by
    rw [ModelRegistry.get_combined_bounds, combined_eq_boxfold]
    rfl
  constructor
  · rw [hfold]
    cases hV : visBoxes r with
    | nil => simp
    | cons bb t =>
      constructor
      · intro hc
        simp only [List.foldl_cons, boxStep] at hc
        exact absurd hc (boxfold_ne_none t bb _ rfl)
      · intro hc; cases hc
  · intro b hb
    rw [hfold] at hb
    cases hV : visBoxes r with
    | nil =>
      rw [hV] at hb
      simp at hb
    | cons bb t =>
      rw [hV] at hb
      simp only [List.foldl_cons, boxStep] at hb
      rcases boxfold_lub t bb b hb with ⟨h1, h2, h3⟩
      constructor
      · intro bb2 hbb2
        rcases List.mem_cons.mp hbb2 with hc | hc
        · subst hc; exact h1
        · exact h2 bb2 hc
      · intro c hall
        apply h3 c
        · exact hall bb (List.mem_cons_self bb t)
        · intro bb2 hbb2
          exact hall bb2 (List.mem_cons_of_mem bb hbb2)

/-- C7 (witness): the characterization applied to the concrete two-model
registry: `[0,3]^3` contains both cached boxes and is the least such box. -/
theorem registry_combined_bounds_witness :
    boxLE box01 { min := { x := 0, y := 0, z := 0 },
                  max := { x := 3, y := 3, z := 3 } } ∧
    boxLE box23 { min := { x := 0, y := 0, z := 0 },
                  max := { x := 3, y := 3, z := 3 } } := by
  have h := ((registry_combined_bounds.1 regTwo).2
    { min := { x := 0, y := 0, z := 0 }, max := { x := 3, y := 3, z := 3 } }
    (by with_unfolding_all rfl)).1
  constructor
  · exact h box01 (by with_unfolding_all decide)
  · exact h box23 (by with_unfolding_all decide)

/-! ### Triangle-range lemmas -/

theorem box_indices_length (c s : P3) (col : RGBA) :
    (generate_box_with_normals c s col).indices.length = 36 := rfl

theorem box_vertices_length (c s : P3) (col : RGBA) :
    (generate_box_with_normals c s col).vertices.length = 72 := rfl

theorem box_normals_length (c s : P3) (col : RGBA) :
    (generate_box_with_normals c s col).normals.length = 72 := rfl

theorem box_colors_length (c s : P3) (col : RGBA) :
    (generate_box_with_normals c s col).colors.length = 96 := rfl

theorem overwrite_quads_length (hc : RGBA) :
    ∀ l : List Rat, (overwrite_quads hc l).length = l.length
  | [] => rfl
  | [_] => rfl
  | [_, _] => rfl
  | [_, _, _] => rfl
  | _ :: _ :: _ :: _ :: rest => by
    simp only [overwrite_quads, List.length_cons]
    rw [overwrite_quads_length hc rest]

theorem apply_highlight_indices (m : Mesh) (hc : RGBA) :
    (apply_highlight m hc).indices = m.indices := rfl

theorem meshOfItem_indices_length (it : EmitItem) :
    (meshOfItem it).indices.length = 36 := by
  unfold meshOfItem
  split
  · rw [apply_highlight_indices, box_indices_length]
  · rw [box_indices_length]

theorem meshOfItem_vertices (it : EmitItem) :
    (meshOfItem it).vertices =
      (generate_box_with_normals it.center it.size it.color).vertices := by
  unfold meshOfItem
  split <;> rfl

theorem meshOfItem_normals (it : EmitItem) :
    (meshOfItem it).normals =
      (generate_box_with_normals it.center it.size it.color).normals := by
  unfold meshOfItem
  split <;> rfl

theorem meshOfItem_indices (it : EmitItem) :
    (meshOfItem it).indices =
      (generate_box_with_normals it.center it.size it.color).indices := by
  unfold meshOfItem
  split <;> rfl

theorem merge_foldl_indices_length (l : List Mesh) (h : ∀ m ∈ l, m.indices.length = 36) :
    ∀ acc : Mesh, (l.foldl mergeStep acc).indices.length =
      acc.indices.length + 36 * l.length := by
  induction l with
  | nil => intro acc; simp
  | cons m t ih =>
    intro acc
    simp only [List.foldl_cons]
    rw [ih (fun x hx => h x (List.mem_cons_of_mem m hx))]
    simp only [mergeStep, List.length_append, List.length_map]
    rw [h m (List.mem_cons_self m t)]
    simp only [List.length_cons]
    ring

theorem merge_meshes_indices_length (l : List Mesh) (h : ∀ m ∈ l, m.indices.length = 36) :
    (merge_meshes l).indices.length = 36 * l.length := by
  unfold merge_meshes
  rw [merge_foldl_indices_length l h Mesh.new]
  simp [Mesh.new]

theorem buildElements_length :
    ∀ (pairs : List (EmitItem × Mesh)) (cur : Nat),
      (buildElements cur pairs).length = pairs.length
  | [], _ => rfl
  | _ :: rest, cur => by
    simp only [buildElements, List.length_cons]
    rw [buildElements_length rest]

theorem buildElements_count_all (pairs : List (EmitItem × Mesh))
    (h : ∀ p ∈ pairs, p.2.indices.length = 36) :
    ∀ cur, ∀ e ∈ buildElements cur pairs, e.triangle_count = 12 := by
  induction pairs with
  | nil => intro cur e he; cases he
  | cons p rest ih =>
    intro cur e he
    simp only [buildElements] at he
    rcases List.mem_cons.mp he with hc | hc
    · subst hc
      show p.2.triangle_count % U32 = 12
      simp only [Mesh.triangle_count]
      rw [h p (List.mem_cons_self p rest)]
      norm_num [U32]
    · exact ih (fun x hx => h x (List.mem_cons_of_mem p hx)) _ e hc

theorem buildElements_start (pairs : List (EmitItem × Mesh))
    (h : ∀ p ∈ pairs, p.2.indices.length = 36) :
    ∀ (cur : Nat), cur < U32 →
      ∀ (i : Nat) (e : ElementInfo), (buildElements cur pairs).get? i = some e →
        e.triangle_start = (cur + 12 * i) % U32 := by
  induction pairs with
  | nil =>
    intro cur _ i e hget
    simp [buildElements] at hget
  | cons p rest ih =>
    intro cur hcur i e hget
    have hpc : p.2.triangle_count % U32 = 12 := by
      simp only [Mesh.triangle_count]
      rw [h p (List.mem_cons_self p rest)]
      norm_num [U32]
    cases i with
    | zero =>
      simp only [buildElements, List.get?_cons_zero, Option.some.injEq] at hget
      rw [← hget]
      rw [Nat.mul_zero, Nat.add_zero, Nat.mod_eq_of_lt hcur]
    | succ j =>
      simp only [buildElements, List.get?_cons_succ] at hget
      rw [hpc] at hget
      have := ih (fun x hx => h x (List.mem_cons_of_mem p hx))
        ((cur + 12) % U32) (Nat.mod_lt _ (by norm_num [U32])) j e hget
      rw [this, Nat.mod_add_mod]
      congr 1
      ring

theorem sum_const12 (l : List ElementInfo) (h : ∀ e ∈ l, e.triangle_count = 12) :
    (l.map ElementInfo.triangle_count).sum = 12 * l.length := by
  induction l with
  | nil => simp
  | cons e t ih =>
    simp only [List.map_cons, List.sum_cons, List.length_cons]
    rw [h e (List.mem_cons_self e t), ih (fun x hx => h x (List.mem_cons_of_mem e hx))]
    ring

theorem assemble_ranges (items : List EmitItem) :
    (∀ (i : Nat) (e : ElementInfo), (assemble items).elements.get? i = some e →
      12 * (assemble items).elements.length < U32 →
      e.triangle_start =
        (((assemble items).elements.take i).map ElementInfo.triangle_count).sum) ∧
    ((assemble items).elements.map ElementInfo.triangle_count).sum =
      (assemble items).indices.length / 3 := by
  have hpairs : ∀ p ∈ items.map (fun it => (it, meshOfItem it)),
      p.2.indices.length = 36 := by
    intro p hp
    rcases List.mem_map.mp hp with ⟨it, _, rfl⟩
    exact meshOfItem_indices_length it
  have hel : (assemble items).elements =
      buildElements 0 (items.map (fun it => (it, meshOfItem it))) := rfl
  have hlen : (assemble items).elements.length = items.length := by
    rw [hel, buildElements_length, List.length_map]
  have hcount : ∀ e ∈ (assemble items).elements, e.triangle_count = 12 := by
    rw [hel]
    exact buildElements_count_all _ hpairs 0
  have hidx : (assemble items).indices.length = 36 * items.length := by
    show (merge_meshes ((items.map (fun it => (it, meshOfItem it))).map
      Prod.snd)).indices.length = _
    rw [merge_meshes_indices_length]
    · rw [List.length_map, List.length_map]
    · intro mm hm
      rcases List.mem_map.mp hm with ⟨p, hp, rfl⟩
      exact hpairs p hp
  constructor
  · intro i e hget hfit
    have hstart := buildElements_start _ hpairs 0 (by norm_num [U32]) i e
      (by rw [← hel]; exact hget)
    have hi : i < (assemble items).elements.length := by
      rcases List.get?_eq_some.mp hget with ⟨hlt, _⟩
      exact hlt
    have hsum : (((assemble items).elements.take i).map
        ElementInfo.triangle_count).sum = 12 * i := by
      rw [sum_const12 _ (fun x hx => hcount x (List.mem_of_mem_take hx)),
        List.length_take, Nat.min_eq_left hi.le]
    rw [hstart, hsum, Nat.zero_add]
    apply Nat.mod_eq_of_lt
    have : 12 * i < 12 * (assemble items).elements.length := by omega
    omega
  · rw [sum_const12 _ hcount, hlen, hidx]
    omega

/-- C6: in every mesh produced by the filtered or unfiltered synthesis, each
element's `triangle_start` is the sum of the `triangle_count` of the
preceding elements, and the counts sum to the merged mesh's total triangle
count (`len(indices)/3`); the start property holds whenever the `u32`
triangle counter cannot wrap. -/
theorem mesh_triangle_ranges :
    ∀ (m : BimModel) (hidden_types : List String) (selected_id : Option EntityId),
      (∀ (i : Nat) (e : ElementInfo),
        (m.generate_meshes_filtered hidden_types selected_id).elements.get? i = some e →
        12 * (m.generate_meshes_filtered hidden_types selected_id).elements.length < U32 →
        e.triangle_start =
          (((m.generate_meshes_filtered hidden_types selected_id).elements.take i).map
            ElementInfo.triangle_count).sum) ∧
      (((m.generate_meshes_filtered hidden_types selected_id).elements.map
          ElementInfo.triangle_count).sum =
        (m.generate_meshes_filtered hidden_types selected_id).indices.length / 3) ∧
      (∀ (i : Nat) (e : ElementInfo),
        m.generate_meshes.elements.get? i = some e →
        12 * m.generate_meshes.elements.length < U32 →
        e.triangle_start =
          ((m.generate_meshes.elements.take i).map ElementInfo.triangle_count).sum) ∧
      ((m.generate_meshes.elements.map ElementInfo.triangle_count).sum =
        m.generate_meshes.indices.length / 3) := by
  intro m hidden_types selected_id
  exact ⟨(assemble_ranges _).1, (assemble_ranges _).2,
    (assemble_ranges _).1, (assemble_ranges _).2⟩

/-- C6 (witness): on a concrete one-wall one-slab model the slab element
(position 1) starts at triangle 12, the sum of the preceding counts. -/
theorem mesh_triangle_ranges_witness :
    ({ id := 2, element_type := "Slab", name := "elem", global_id := "gid",
       bounds := { min := { x := -5, y := -(3/20), z := -4 },
                   max := { x := 5, y := 3/20, z := 4 } },
       triangle_start := 12, triangle_count := 12 } : ElementInfo).triangle_start =
      (((wallSlabModel.generate_meshes_filtered [] none).elements.take 1).map
        ElementInfo.triangle_count).sum :=
  (mesh_triangle_ranges wallSlabModel [] none).1 1 _
    (by with_unfolding_all rfl) (by with_unfolding_all decide)

/-! ### Merged-buffer formulas -/

theorem merge_fold_vertices (l : List Mesh) :
    ∀ acc : Mesh, (l.foldl mergeStep acc).vertices =
      acc.vertices ++ (l.map Mesh.vertices).flatten := by
  induction l with
  | nil => intro acc; simp
  | cons m t ih =>
    intro acc
    simp only [List.foldl_cons, List.map_cons, List.flatten_cons]
    rw [ih]
    simp [mergeStep, List.append_assoc]

theorem merged_vertices (l : List Mesh) :
    (merge_meshes l).vertices = (l.map Mesh.vertices).flatten := by
  unfold merge_meshes
  rw [merge_fold_vertices]
  rfl

theorem merge_fold_normals (l : List Mesh) :
    ∀ acc : Mesh, (l.foldl mergeStep acc).normals =
      acc.normals ++ (l.map Mesh.normals).flatten := by
  induction l with
  | nil => intro acc; simp
  | cons m t ih =>
    intro acc
    simp only [List.foldl_cons, List.map_cons, List.flatten_cons]
    rw [ih]
    simp [mergeStep, List.append_assoc]

theorem merged_normals (l : List Mesh) :
    (merge_meshes l).normals = (l.map Mesh.normals).flatten := by
  unfold merge_meshes
  rw [merge_fold_normals]
  rfl

theorem merge_fold_colors (l : List Mesh) :
    ∀ acc : Mesh, (l.foldl mergeStep acc).colors =
      acc.colors ++ (l.map Mesh.colors).flatten := by
  induction l with
  | nil => intro acc; simp
  | cons m t ih =>
    intro acc
    simp only [List.foldl_cons, List.map_cons, List.flatten_cons]
    rw [ih]
    simp [mergeStep, List.append_assoc]

theorem merged_colors (l : List Mesh) :
    (merge_meshes l).colors = (l.map Mesh.colors).flatten := by
  unfold merge_meshes
  rw [merge_fold_colors]
  rfl

theorem merge_fold_indices (l : List Mesh) (h : ∀ m ∈ l, m.vertices.length = 72) :
    ∀ (acc : Mesh) (k : Nat), acc.vertices.length = 72 * k →
      (l.foldl mergeStep acc).indices =
        acc.indices ++ (offsetRows k l).flatten := by
  induction l with
  | nil => intro acc k _; simp [offsetRows]
  | cons m t ih =>
    intro acc k hk
    simp only [List.foldl_cons, offsetRows, List.flatten_cons]
    have hstep : (mergeStep acc m).vertices.length = 72 * (k + 1) := by
      simp only [mergeStep, List.length_append]
      rw [hk, h m (List.mem_cons_self m t)]
      ring
    rw [ih (fun x hx => h x (List.mem_cons_of_mem m hx)) (mergeStep acc m) (k + 1) hstep]
    have hbase : (mergeStep acc m).indices =
        acc.indices ++ offsetIndices k m := by
      have hq : acc.vertices.length / 3 = 24 * k := by rw [hk]; omega
      simp only [mergeStep, offsetIndices, Mesh.vertex_count, hq]
    rw [hbase, List.append_assoc]

theorem merged_indices (l : List Mesh) (h : ∀ m ∈ l, m.vertices.length = 72) :
    (merge_meshes l).indices = (offsetRows 0 l).flatten := by
  unfold merge_meshes
  rw [merge_fold_indices l h Mesh.new 0 (by rfl)]
  rfl

/-- Slices of a flattened list of equal-length blocks recover the blocks. -/
theorem flatten_slice (c : Nat) :
    ∀ (bl : List (List Rat)), (∀ x ∈ bl, x.length = c) →
      ∀ (k : Nat) (b : List Rat), bl.get? k = some b →
        sliceQ (c * k) c bl.flatten = b := by
  intro bl
  induction bl with
  | nil => intro _ k b hb; simp at hb
  | cons hd t ih =>
    intro hlen k b hb
    cases k with
    | zero =>
      simp only [List.get?_cons_zero, Option.some.injEq] at hb
      subst hb
      simp only [Nat.mul_zero, sliceQ, List.drop_zero, List.flatten_cons]
      have hhd : hd.length = c := hlen hd (List.mem_cons_self hd t)
      rw [List.take_append_of_le_length (by rw [hhd])]
      rw [List.take_of_length_le (by rw [hhd])]
    | succ j =>
      simp only [List.get?_cons_succ] at hb
      have hhd : hd.length = c := hlen hd (List.mem_cons_self hd t)
      have := ih (fun x hx => hlen x (List.mem_cons_of_mem hd hx)) j b hb
      simp only [sliceQ, List.flatten_cons] at this ⊢
      rw [show c * (j + 1) = hd.length + c * j from by rw [hhd]; ring]
      rw [List.drop_append]
      exact this

/-! ### Highlight lemmas -/

theorem box_colors_quadFlat (c s : P3) (col : RGBA) :
    (generate_box_with_normals c s col).colors = quadFlat col 24 := rfl

theorem overwrite_quadFlat (hc col : RGBA) :
    overwrite_quads hc (quadFlat col 24) = quadFlat hc 24 := rfl

theorem quadFlat_length (c : RGBA) : (quadFlat c 24).length = 96 := rfl

theorem meshOfItem_colors (it : EmitItem) :
    (meshOfItem it).colors =
      (if it.highlighted then quadFlat highlight_color 24 else quadFlat it.color 24) := by
  unfold meshOfItem apply_highlight
  split
  · simp only [box_colors_quadFlat]
    rw [overwrite_quadFlat]
  · rw [box_colors_quadFlat]

theorem markSel_vertices (h : EntityId) (it : EmitItem) :
    (meshOfItem (markSel h it)).vertices = (meshOfItem it).vertices := by
  rw [meshOfItem_vertices, meshOfItem_vertices]
  rfl

theorem markSel_normals (h : EntityId) (it : EmitItem) :
    (meshOfItem (markSel h it)).normals = (meshOfItem it).normals := by
  rw [meshOfItem_normals, meshOfItem_normals]
  rfl

theorem markSel_indices (h : EntityId) (it : EmitItem) :
    (meshOfItem (markSel h it)).indices = (meshOfItem it).indices := by
  rw [meshOfItem_indices, meshOfItem_indices]
  rfl

theorem meshOfItem_vertices_length (it : EmitItem) :
    (meshOfItem it).vertices.length = 72 := by
  rw [meshOfItem_vertices, box_vertices_length]

theorem meshOfItem_colors_length (it : EmitItem) :
    (meshOfItem it).colors.length = 96 := by
  rw [meshOfItem_colors]
  split <;> rfl

theorem wall_items_sel (walls : List IfcWall) (h : EntityId) :
    wall_items walls (some h) = (wall_items walls none).map (markSel h) := by
  unfold wall_items
  rw [List.map_map]
  apply List.map_congr_left
  intro p _
  simp [markSel]

theorem slab_items_sel (slabs : List IfcSlab) (h : EntityId) :
    slab_items slabs (some h) = (slab_items slabs none).map (markSel h) := by
  unfold slab_items
  rw [List.map_map]
  apply List.map_congr_left
  intro p _
  simp [markSel]

theorem column_items_sel (columns : List IfcColumn) (h : EntityId) :
    column_items columns (some h) = (column_items columns none).map (markSel h) := by
  unfold column_items
  rw [List.map_map]
  apply List.map_congr_left
  intro p _
  simp [markSel]

theorem beam_items_sel (beams : List IfcBeam) (h : EntityId) :
    beam_items beams (some h) = (beam_items beams none).map (markSel h) := by
  unfold beam_items
  rw [List.map_map]
  apply List.map_congr_left
  intro p _
  simp [markSel]

theorem door_items_sel (doors : List IfcDoor) (h : EntityId) :
    door_items doors (some h) = (door_items doors none).map (markSel h) := by
  unfold door_items
  rw [List.map_map]
  apply List.map_congr_left
  intro p _
  simp [markSel]

theorem window_items_sel (windows : List IfcWindow) (h : EntityId) :
    window_items windows (some h) = (window_items windows none).map (markSel h) := by
  unfold window_items
  rw [List.map_map]
  apply List.map_congr_left
  intro p _
  simp [markSel]

theorem shell_items_sel (hidden_types : List String) (h : EntityId) :
    default_shell_items_filtered hidden_types (some h) =
      (default_shell_items_filtered hidden_types none).map (markSel h) := by
  unfold default_shell_items_filtered
  rw [List.map_map]
  apply List.map_congr_left
  intro p _
  simp [markSel]

theorem filtered_items_sel (m : BimModel) (hidden_types : List String) (h : EntityId) :
    filtered_items m hidden_types (some h) =
      (filtered_items m hidden_types none).map (markSel h) := by
  unfold filtered_items
  rw [wall_items_sel, slab_items_sel, column_items_sel, beam_items_sel,
    door_items_sel, window_items_sel]
  simp only [List.map_append, apply_ite (List.map (markSel h)), List.map_nil]

theorem items_none_not_highlighted (m : BimModel) (hidden_types : List String) :
    ∀ it ∈ filtered_items m hidden_types none, it.highlighted = false := by
  intro it hit
  unfold filtered_items at hit
  simp only [List.mem_append] at hit
  rcases hit with ((((h1 | h1) | h1) | h1) | h1) | h1 <;>
  · split at h1
    · cases h1
    · simp only [wall_items, slab_items, column_items, beam_items, door_items,
        window_items] at h1
      rcases List.mem_map.mp h1 with ⟨p, _, rfl⟩
      simp

theorem shell_none_not_highlighted (hidden_types : List String) :
    ∀ it ∈ default_shell_items_filtered hidden_types none, it.highlighted = false := by
  intro it hit
  unfold default_shell_items_filtered at hit
  rcases List.mem_map.mp hit with ⟨p, _, rfl⟩
  simp

theorem buildElements_markSel (h : EntityId) :
    ∀ (l : List EmitItem) (cur : Nat),
      buildElements cur (l.map (fun it => (markSel h it, meshOfItem (markSel h it)))) =
        buildElements cur (l.map (fun it => (it, meshOfItem it)))
  | [], _ => rfl
  | it :: rest, cur => by
    simp only [List.map_cons, buildElements]
    have hidx : (meshOfItem (markSel h it)).triangle_count =
        (meshOfItem it).triangle_count := by
      simp only [Mesh.triangle_count, markSel_indices]
    rw [hidx]
    rw [buildElements_markSel h rest]
    rfl

theorem buildElements_get_id (pairs : List (EmitItem × Mesh)) :
    ∀ (cur k : Nat),
      ((buildElements cur pairs).get? k).map ElementInfo.id =
        (pairs.get? k).map (fun p => p.1.id) := by
  induction pairs with
  | nil => intro cur k; simp [buildElements]
  | cons p rest ih =>
    intro cur k
    cases k with
    | zero => simp [buildElements]
    | succ j =>
      simp only [buildElements, List.get?_cons_succ]
      exact ih _ j

theorem offsetRows_congr (f g : EmitItem → Mesh)
    (hfg : ∀ it, (f it).indices = (g it).indices) :
    ∀ (k : Nat) (l : List EmitItem),
      offsetRows k (l.map f) = offsetRows k (l.map g)
  | _, [] => rfl
  | k, it :: rest => by
    simp only [List.map_cons, offsetRows, offsetIndices, hfg it]
    rw [offsetRows_congr f g hfg (k + 1) rest]

theorem assemble_vertices (items : List EmitItem) :
    (assemble items).vertices =
      (items.map (fun it => (meshOfItem it).vertices)).flatten := by
  show (merge_meshes ((items.map (fun it => (it, meshOfItem it))).map Prod.snd)).vertices = _
  rw [merged_vertices, List.map_map, List.map_map]
  rfl

theorem assemble_normals (items : List EmitItem) :
    (assemble items).normals =
      (items.map (fun it => (meshOfItem it).normals)).flatten := by
  show (merge_meshes ((items.map (fun it => (it, meshOfItem it))).map Prod.snd)).normals = _
  rw [merged_normals, List.map_map, List.map_map]
  rfl

theorem assemble_colors (items : List EmitItem) :
    (assemble items).colors =
      (items.map (fun it => (meshOfItem it).colors)).flatten := by
  show (merge_meshes ((items.map (fun it => (it, meshOfItem it))).map Prod.snd)).colors = _
  rw [merged_colors, List.map_map, List.map_map]
  rfl

theorem assemble_indices (items : List EmitItem) :
    (assemble items).indices = (offsetRows 0 (items.map meshOfItem)).flatten := by
  show (merge_meshes ((items.map (fun it => (it, meshOfItem it))).map Prod.snd)).indices = _
  rw [merged_indices, List.map_map]
  · rfl
  · intro mm hm
    rcases List.mem_map.mp hm with ⟨p, hp, rfl⟩
    rcases List.mem_map.mp hp with ⟨it, _, rfl⟩
    exact meshOfItem_vertices_length it

theorem assemble_bounds (items : List EmitItem) :
    (assemble items).bounds =
      (merge_meshes (items.map (fun it => meshOfItem it))).bounding_box := by
  show (merge_meshes ((items.map (fun it => (it, meshOfItem it))).map Prod.snd)).bounding_box = _
  rw [List.map_map]
  rfl

theorem bounding_box_of_vertices (m1 m2 : Mesh) (h : m1.vertices = m2.vertices) :
    m1.bounding_box = m2.bounding_box := by
  unfold Mesh.bounding_box
  rw [h]

/-- C9: highlighting only ever changes vertex colors: with any highlighted
id, the filtered synthesis produces the same vertices, normals, indices,
bounds and elements list as with no highlight, and the color buffer differs
only inside the highlighted element's 24-vertex color block, which becomes
the fixed highlight color. -/
theorem highlight_only_colors :
    ∀ (m : BimModel) (hidden_types : List String) (h : EntityId),
      (m.generate_meshes_filtered hidden_types (some h)).vertices =
        (m.generate_meshes_filtered hidden_types none).vertices ∧
      (m.generate_meshes_filtered hidden_types (some h)).normals =
        (m.generate_meshes_filtered hidden_types none).normals ∧
      (m.generate_meshes_filtered hidden_types (some h)).indices =
        (m.generate_meshes_filtered hidden_types none).indices ∧
      (m.generate_meshes_filtered hidden_types (some h)).bounds =
        (m.generate_meshes_filtered hidden_types none).bounds ∧
      (m.generate_meshes_filtered hidden_types (some h)).elements =
        (m.generate_meshes_filtered hidden_types none).elements ∧
      ∀ (k : Nat) (e : ElementInfo),
        (m.generate_meshes_filtered hidden_types none).elements.get? k = some e →
        (e.id ≠ h →
          colorSlice (m.generate_meshes_filtered hidden_types (some h)) k =
            colorSlice (m.generate_meshes_filtered hidden_types none) k) ∧
        (e.id = h →
          colorSlice (m.generate_meshes_filtered hidden_types (some h)) k =
            quadFlat highlight_color 24) := by
  intro m hidden_types h
  have hie : ((filtered_items m hidden_types none).map (markSel h)).isEmpty =
      (filtered_items m hidden_types none).isEmpty := by
    cases filtered_items m hidden_types none <;> rfl
  have hbaseH : m.generate_meshes_filtered hidden_types (some h) =
      assemble ((if (filtered_items m hidden_types none).isEmpty
        then default_shell_items_filtered hidden_types none
        else filtered_items m hidden_types none).map (markSel h)) := by
    show assemble (if (filtered_items m hidden_types (some h)).isEmpty
        then default_shell_items_filtered hidden_types (some h)
        else filtered_items m hidden_types (some h)) = _
    rw [filtered_items_sel, shell_items_sel, hie]
    by_cases hc : (filtered_items m hidden_types none).isEmpty
    · rw [if_pos hc, if_pos hc]
    · rw [if_neg hc, if_neg hc]
  have hbaseN : m.generate_meshes_filtered hidden_types none =
      assemble (if (filtered_items m hidden_types none).isEmpty
        then default_shell_items_filtered hidden_types none
        else filtered_items m hidden_types none) := rfl
  generalize hBdef : (if (filtered_items m hidden_types none).isEmpty
      then default_shell_items_filtered hidden_types none
      else filtered_items m hidden_types none) = B at hbaseH hbaseN
  have hBnh : ∀ it ∈ B, it.highlighted = false := by
    rw [← hBdef]
    split
    · exact shell_none_not_highlighted hidden_types
    · exact items_none_not_highlighted m hidden_types
  have hmapmap : (B.map (markSel h)).map (fun it => (it, meshOfItem it)) =
      B.map (fun it => (markSel h it, meshOfItem (markSel h it))) := by
    rw [List.map_map]
    rfl
  have hvert : (assemble (B.map (markSel h))).vertices = (assemble B).vertices := by
    rw [assemble_vertices, assemble_vertices, List.map_map]
    congr 1
    apply List.map_congr_left
    intro it _
    exact markSel_vertices h it
  have hel : (assemble (B.map (markSel h))).elements = (assemble B).elements := by
    show buildElements 0 ((B.map (markSel h)).map (fun it => (it, meshOfItem it))) =
      buildElements 0 (B.map (fun it => (it, meshOfItem it)))
    rw [hmapmap, buildElements_markSel]
  refine ⟨?_, ?_, ?_, ?_, ?_, ?_⟩
  · rw [hbaseH, hbaseN]
    exact hvert
  · rw [hbaseH, hbaseN, assemble_normals, assemble_normals, List.map_map]
    congr 1
    apply List.map_congr_left
    intro it _
    exact markSel_normals h it
  · rw [hbaseH, hbaseN, assemble_indices, assemble_indices, List.map_map]
    congr 1
    exact offsetRows_congr _ _ (fun it => markSel_indices h it) 0 B
  · rw [hbaseH, hbaseN, assemble_bounds, assemble_bounds]
    apply bounding_box_of_vertices
    rw [merged_vertices, merged_vertices]
    simp only [List.map_map]
    congr 1
    apply List.map_congr_left
    intro it _
    exact markSel_vertices h it
  · rw [hbaseH, hbaseN]
    exact hel
  · intro k e hget
    rw [hbaseN] at hget
    have hid : ((assemble B).elements.get? k).map ElementInfo.id =
        (B.get? k).map (fun it => it.id) := by
      show ((buildElements 0 (B.map (fun it => (it, meshOfItem it)))).get? k).map
        ElementInfo.id = _
      rw [buildElements_get_id, List.get?_map]
      cases B.get? k <;> rfl
    rw [hget] at hid
    rcases Option.map_eq_some'.mp hid.symm with ⟨it, hBk, hitid⟩
    have hitmem : it ∈ B := List.get?_mem hBk
    have hColorsN : colorSlice (assemble B) k = quadFlat it.color 24 := by
      unfold colorSlice
      rw [assemble_colors]
      rw [flatten_slice 96 (B.map (fun it => (meshOfItem it).colors)) ?hlen k
        ((meshOfItem it).colors) ?hblk]
      · rw [meshOfItem_colors, hBnh it hitmem]
        simp
      case hlen =>
        intro x hx
        rcases List.mem_map.mp hx with ⟨it2, _, rfl⟩
        exact meshOfItem_colors_length it2
      case hblk =>
        rw [List.get?_map, hBk]
        rfl
    have hColorsH : colorSlice (assemble (B.map (markSel h))) k =
        (if h = it.id then quadFlat highlight_color 24 else quadFlat it.color 24) := by
      unfold colorSlice
      rw [assemble_colors, List.map_map]
      show sliceQ (96 * k) 96
        (List.map (fun it2 => (meshOfItem (markSel h it2)).colors) B).flatten =
        (if h = it.id then quadFlat highlight_color 24 else quadFlat it.color 24)
      rw [flatten_slice 96 (B.map (fun it2 => (meshOfItem (markSel h it2)).colors))
        ?hlen2 k ((meshOfItem (markSel h it)).colors) ?hblk2]
      · rw [meshOfItem_colors]
        by_cases hhit : h = it.id
        · rw [if_pos hhit]
          have : (markSel h it).highlighted = true := by
            simp [markSel, hhit]
          rw [this]
          simp
        · rw [if_neg hhit]
          have : (markSel h it).highlighted = false := by
            simp [markSel]
            exact fun hc => absurd hc hhit
          rw [this]
          simp [markSel]
      case hlen2 =>
        intro x hx
        rcases List.mem_map.mp hx with ⟨it2, _, rfl⟩
        exact meshOfItem_colors_length (markSel h it2)
      case hblk2 =>
        rw [List.get?_map, hBk]
        rfl
    constructor
    · intro hne
      rw [hbaseH, hbaseN, hColorsN, hColorsH]
      rw [if_neg (fun hc => hne (by rw [← hitid]; exact hc.symm))]
    · intro heq
      rw [hbaseH, hColorsH]
      rw [if_pos (by rw [hitid]; exact heq.symm)]

/-- C9 (witness): on the concrete one-wall one-slab model, highlighting
element 2 leaves the vertex buffer identical to the unhighlighted run. -/
theorem highlight_only_colors_witness :
    (wallSlabModel.generate_meshes_filtered [] (some 2)).vertices =
      (wallSlabModel.generate_meshes_filtered [] none).vertices :=
  (highlight_only_colors wallSlabModel [] 2).1

/-! ### Hidden-type lemmas -/

set_option maxHeartbeats 2000000 in
theorem box_indices_local (c s : P3) (col : RGBA) :
    (generate_box_with_normals c s col).indices = localBoxIdx := by
  with_unfolding_all rfl

theorem meshOfItem_indices_local (it : EmitItem) :
    (meshOfItem it).indices = localBoxIdx := by
  rw [meshOfItem_indices, box_indices_local]

theorem flatten_sliceN (c : Nat) :
    ∀ (bl : List (List Nat)), (∀ x ∈ bl, x.length = c) →
      ∀ (k : Nat) (b : List Nat), bl.get? k = some b →
        sliceN (c * k) c bl.flatten = b := by
  intro bl
  induction bl with
  | nil => intro _ k b hb; simp at hb
  | cons hd t ih =>
    intro hlen k b hb
    cases k with
    | zero =>
      simp only [List.get?_cons_zero, Option.some.injEq] at hb
      subst hb
      simp only [Nat.mul_zero, sliceN, List.drop_zero, List.flatten_cons]
      have hhd : hd.length = c := hlen hd (List.mem_cons_self hd t)
      rw [List.take_append_of_le_length (by rw [hhd])]
      rw [List.take_of_length_le (by rw [hhd])]
    | succ j =>
      simp only [List.get?_cons_succ] at hb
      have hhd : hd.length = c := hlen hd (List.mem_cons_self hd t)
      have := ih (fun x hx => hlen x (List.mem_cons_of_mem hd hx)) j b hb
      simp only [sliceN, List.flatten_cons] at this ⊢
      rw [show c * (j + 1) = hd.length + c * j from by rw [hhd]; ring]
      rw [List.drop_append]
      exact this

theorem offsetRows_get? (l : List Mesh) :
    ∀ (k j : Nat), (offsetRows k l).get? j =
      (l.get? j).map (fun m => offsetIndices (k + j) m) := by
  induction l with
  | nil => intro k j; simp [offsetRows]
  | cons m t ih =>
    intro k j
    cases j with
    | zero => simp [offsetRows]
    | succ i =>
      simp only [offsetRows, List.get?_cons_succ]
      rw [ih (k + 1) i]
      rw [show k + 1 + i = k + (i + 1) from by omega]

theorem demod_offset (off idx : Nat) (h : idx < U32) :
    demod off ((idx + off % U32) % U32) = idx := by
  simp only [demod, U32] at h ⊢
  omega

theorem localBoxIdx_lt (x : Nat) (hx : x ∈ localBoxIdx) : x < U32 := by
  revert hx
  revert x
  decide

theorem localBoxIdx_demod (j : Nat) :
    (localBoxIdx.map (fun idx => (idx + (24 * j) % U32) % U32)).map
      (demod (24 * j)) = localBoxIdx := by
  conv_rhs => rw [← List.map_id localBoxIdx]
  rw [List.map_map]
  apply List.map_congr_left
  intro x hx
  exact demod_offset (24 * j) x (localBoxIdx_lt x hx)

theorem buildElements_get_strip (pairs : List (EmitItem × Mesh)) :
    ∀ (cur k : Nat),
      ((buildElements cur pairs).get? k).map stripStart =
        (pairs.get? k).map (fun p =>
          { id := p.1.id, element_type := p.1.element_type, name := p.1.name,
            global_id := p.1.global_id, bounds := itemBounds p.1,
            triangle_count := p.2.triangle_count % U32 }) := by
  induction pairs with
  | nil => intro cur k; simp [buildElements]
  | cons p rest ih =>
    intro cur k
    cases k with
    | zero => simp [buildElements, stripStart]
    | succ j =>
      simp only [buildElements, List.get?_cons_succ]
      exact ih _ j

theorem meshOfItem_normals_length (it : EmitItem) :
    (meshOfItem it).normals.length = 72 := by
  rw [meshOfItem_normals, box_normals_length]

theorem offsetRows_len_mem (l : List Mesh) (h : ∀ m ∈ l, m.indices.length = 36) :
    ∀ (k : Nat), ∀ x ∈ offsetRows k l, x.length = 36 := by
  induction l with
  | nil => intro k x hx; simp [offsetRows] at hx
  | cons m t ih =>
    intro k x hx
    simp only [offsetRows, List.mem_cons] at hx
    rcases hx with hc | hc
    · subst hc
      simp only [offsetIndices, List.length_map]
      exact h m (List.mem_cons_self m t)
    · exact ih (fun y hy => h y (List.mem_cons_of_mem m hy)) (k + 1) x hc

theorem extractAll_assemble (items : List EmitItem) :
    extractAll (assemble items) = items.map itemView := by
  have hellen : (assemble items).elements.length = items.length := by
    show (buildElements 0 (items.map (fun it => (it, meshOfItem it)))).length = _
    rw [buildElements_length, List.length_map]
  apply List.ext_get?
  intro k
  show ((assemble items).elements.enum.map
    (fun p => elemRecord (assemble items) p.1 p.2)).get? k = _
  rw [List.get?_map, List.get?_enum, List.get?_map]
  cases hk : (assemble items).elements.get? k with
  | none =>
    have hkn : items.get? k = none := by
      rw [List.get?_eq_none] at hk ⊢
      omega
    rw [hkn]
    rfl
  | some e =>
    have hklt : k < items.length := by
      rcases List.get?_eq_some.mp hk with ⟨hlt, _⟩
      omega
    obtain ⟨it, hit⟩ : ∃ it, items.get? k = some it := by
      cases hit2 : items.get? k with
      | none =>
        rw [List.get?_eq_none] at hit2
        omega
      | some x => exact ⟨x, rfl⟩
    rw [hit]
    simp only [Option.map_some', Option.some.injEq]
    have hpairk : (items.map (fun it => (it, meshOfItem it))).get? k =
        some (it, meshOfItem it) := by
      rw [List.get?_map, hit]
      rfl
    have hstrip : stripStart e =
        { id := it.id, element_type := it.element_type, name := it.name,
          global_id := it.global_id, bounds := itemBounds it,
          triangle_count := 12 } := by
      have h1 := buildElements_get_strip
        (items.map (fun it => (it, meshOfItem it))) 0 k
      rw [hpairk] at h1
      have h2 : ((assemble items).elements.get? k).map stripStart =
          some (stripStart e) := by rw [hk]; rfl
      have h3 : ((buildElements 0 (items.map (fun it => (it, meshOfItem it)))).get?
          k).map stripStart = some (stripStart e) := h2
      rw [h1] at h3
      simp only [Option.map_some'] at h3
      have h4 := (Option.some.inj h3).symm
      rw [h4]
      have h5 : (meshOfItem it).triangle_count % U32 = 12 := by
        simp only [Mesh.triangle_count, meshOfItem_indices_length]
        norm_num [U32]
      simp only [h5]
    simp only [elemRecord, itemView, Prod.mk.injEq]
    refine ⟨hstrip, ?_, ?_, ?_, ?_⟩
    · rw [assemble_vertices]
      exact flatten_slice 72 _
        (by
          intro x hx
          rcases List.mem_map.mp hx with ⟨it2, _, rfl⟩
          exact meshOfItem_vertices_length it2)
        k _ (by rw [List.get?_map, hit]; rfl)
    · rw [assemble_normals]
      exact flatten_slice 72 _
        (by
          intro x hx
          rcases List.mem_map.mp hx with ⟨it2, _, rfl⟩
          exact meshOfItem_normals_length it2)
        k _ (by rw [List.get?_map, hit]; rfl)
    · rw [assemble_colors]
      exact flatten_slice 96 _
        (by
          intro x hx
          rcases List.mem_map.mp hx with ⟨it2, _, rfl⟩
          exact meshOfItem_colors_length it2)
        k _ (by rw [List.get?_map, hit]; rfl)
    · rw [assemble_indices]
      have hsl : sliceN (36 * k) 36 ((offsetRows 0 (items.map meshOfItem)).flatten) =
          offsetIndices k (meshOfItem it) := by
        apply flatten_sliceN 36 _
          (offsetRows_len_mem _
            (by
              intro mm hm
              rcases List.mem_map.mp hm with ⟨it2, _, rfl⟩
              exact meshOfItem_indices_length it2) 0)
          k
        rw [offsetRows_get?, List.get?_map, hit]
        simp only [Option.map_some', Option.some.injEq]
        rw [Nat.zero_add]
      rw [hsl]
      unfold offsetIndices
      rw [meshOfItem_indices_local]
      exact localBoxIdx_demod k

theorem flatten_const_len {α : Type} (c : Nat) (bl : List (List α))
    (h : ∀ x ∈ bl, x.length = c) : bl.flatten.length = c * bl.length := by
  induction bl with
  | nil => simp
  | cons hd t ih =>
    simp only [List.flatten_cons, List.length_append, List.length_cons]
    rw [h hd (List.mem_cons_self hd t),
      ih (fun x hx => h x (List.mem_cons_of_mem hd hx))]
    ring

theorem first_filter_eq_nil {α : Type} (p : α → Bool) (l : List α) :
    l.filter p = [] ↔ ∀ a ∈ l, ¬p a := by
  induction l with
  | nil => simp
  | cons hd t ih =>
    by_cases hp : p hd
    · simp [List.filter_cons, hp]
    · simp only [List.filter_cons, hp, Bool.false_eq_true, if_false, ih]
      constructor
      · intro hall
        intro a ha
        rcases List.mem_cons.mp ha with hc | hc
        · subst hc; exact fun hbad => hp hbad
        · exact hall a hc
      · intro hall a ha
        exact hall a (List.mem_cons_of_mem hd ha)

theorem wall_items_filter (walls : List IfcWall) (hidden : List String) :
    (wall_items walls none).filter (fun it => !(hidden.contains it.element_type)) =
      (if hidden.contains "Wall" then [] else wall_items walls none) := by
  unfold wall_items
  rw [List.filter_map]
  by_cases hm : ("Wall" : String) ∈ hidden
  · rw [if_pos (by simpa using hm)]
    refine List.map_eq_nil_iff.mpr ?_
    refine (first_filter_eq_nil _ _).mpr ?_
    intro a _
    simp [Function.comp, hm]
  · rw [if_neg (by simpa using hm)]
    congr 1
    refine List.filter_eq_self.mpr ?_
    intro a _
    simp [Function.comp, hm]

theorem slab_items_filter (slabs : List IfcSlab) (hidden : List String) :
    (slab_items slabs none).filter (fun it => !(hidden.contains it.element_type)) =
      (if hidden.contains "Slab" then [] else slab_items slabs none) := by
  unfold slab_items
  rw [List.filter_map]
  by_cases hm : ("Slab" : String) ∈ hidden
  · rw [if_pos (by simpa using hm)]
    refine List.map_eq_nil_iff.mpr ?_
    refine (first_filter_eq_nil _ _).mpr ?_
    intro a _
    simp [Function.comp, hm]
  · rw [if_neg (by simpa using hm)]
    congr 1
    refine List.filter_eq_self.mpr ?_
    intro a _
    simp [Function.comp, hm]

theorem column_items_filter (columns : List IfcColumn) (hidden : List String) :
    (column_items columns none).filter (fun it => !(hidden.contains it.element_type)) =
      (if hidden.contains "Column" then [] else column_items columns none) := by
  unfold column_items
  rw [List.filter_map]
  by_cases hm : ("Column" : String) ∈ hidden
  · rw [if_pos (by simpa using hm)]
    refine List.map_eq_nil_iff.mpr ?_
    refine (first_filter_eq_nil _ _).mpr ?_
    intro a _
    simp [Function.comp, hm]
  · rw [if_neg (by simpa using hm)]
    congr 1
    refine List.filter_eq_self.mpr ?_
    intro a _
    simp [Function.comp, hm]

theorem beam_items_filter (beams : List IfcBeam) (hidden : List String) :
    (beam_items beams none).filter (fun it => !(hidden.contains it.element_type)) =
      (if hidden.contains "Beam" then [] else beam_items beams none) := by
  unfold beam_items
  rw [List.filter_map]
  by_cases hm : ("Beam" : String) ∈ hidden
  · rw [if_pos (by simpa using hm)]
    refine List.map_eq_nil_iff.mpr ?_
    refine (first_filter_eq_nil _ _).mpr ?_
    intro a _
    simp [Function.comp, hm]
  · rw [if_neg (by simpa using hm)]
    congr 1
    refine List.filter_eq_self.mpr ?_
    intro a _
    simp [Function.comp, hm]

theorem door_items_filter (doors : List IfcDoor) (hidden : List String) :
    (door_items doors none).filter (fun it => !(hidden.contains it.element_type)) =
      (if hidden.contains "Door" then [] else door_items doors none) := by
  unfold door_items
  rw [List.filter_map]
  by_cases hm : ("Door" : String) ∈ hidden
  · rw [if_pos (by simpa using hm)]
    refine List.map_eq_nil_iff.mpr ?_
    refine (first_filter_eq_nil _ _).mpr ?_
    intro a _
    simp [Function.comp, hm]
  · rw [if_neg (by simpa using hm)]
    congr 1
    refine List.filter_eq_self.mpr ?_
    intro a _
    simp [Function.comp, hm]

theorem window_items_filter (windows : List IfcWindow) (hidden : List String) :
    (window_items windows none).filter (fun it => !(hidden.contains it.element_type)) =
      (if hidden.contains "Window" then [] else window_items windows none) := by
  unfold window_items
  rw [List.filter_map]
  by_cases hm : ("Window" : String) ∈ hidden
  · rw [if_pos (by simpa using hm)]
    refine List.map_eq_nil_iff.mpr ?_
    refine (first_filter_eq_nil _ _).mpr ?_
    intro a _
    simp [Function.comp, hm]
  · rw [if_neg (by simpa using hm)]
    congr 1
    refine List.filter_eq_self.mpr ?_
    intro a _
    simp [Function.comp, hm]

theorem offsetRows_length (k : Nat) (ms : List Mesh) :
    (offsetRows k ms).length = ms.length := by
  induction ms generalizing k with
  | nil => rfl
  | cons m rest ih => simp [offsetRows, ih]

/-- C2 (counterexample): the claim fails as stated: on a model containing
one roof (and nothing else), hiding `Wall` does not leave the roof element:
the filtered generator never emits roofs at all, falls back to the default
shell, and produces a `Slab`/`Roof` shell pair instead of the model's roof
element. -/
theorem hide_type_claim_false :
    (roofOnlyModel.generate_meshes_filtered ["Wall"] none).elements.map
        ElementInfo.element_type = ["Slab", "Roof"] ∧
    (roofOnlyModel.generate_meshes.elements.filter
        (fun e => !((["Wall"] : List String).contains e.element_type))).map
        ElementInfo.element_type = ["Roof"] ∧
    (roofOnlyModel.generate_meshes_filtered ["Wall"] none).elements ≠
      roofOnlyModel.generate_meshes.elements.filter
        (fun e => !((["Wall"] : List String).contains e.element_type)) := by
  have hA : (roofOnlyModel.generate_meshes_filtered ["Wall"] none).elements.map
      ElementInfo.element_type = ["Slab", "Roof"] := by with_unfolding_all rfl
  have hB : (roofOnlyModel.generate_meshes.elements.filter
      (fun e => !((["Wall"] : List String).contains e.element_type))).map
      ElementInfo.element_type = ["Roof"] := by with_unfolding_all rfl
  refine ⟨hA, hB, ?_⟩
  intro hc
  rw [hc] at hA
  rw [hB] at hA
  simp at hA

/-- C2 (amended): for a model whose elements are only of the six kinds the
filtered generator emits (no roofs, stairs, footings, pipes, ducts, flow
terminals, cable carriers or proxies), and where at least one element
survives the filter (so the default-shell fallback does not trigger),
hiding the type set `[T]` removes exactly those elements: the per-element
contents of the filtered mesh (element records without their renumbered
triangle start, 24-vertex coordinate/normal/color blocks, and local
triangle indices) are exactly those of the unfiltered mesh with the hidden
type's elements removed, and the buffers contain nothing beyond those
blocks. -/
theorem hidden_type_filtering :
    ∀ (m : BimModel) (T : String),
      m.roofs = [] → m.stairs = [] → m.footings = [] → m.pipes = [] →
      m.ducts = [] → m.flow_terminals = [] → m.cable_carriers = [] →
      m.proxies = [] → filtered_items m [T] none ≠ [] →
      (extractAll (m.generate_meshes_filtered [T] none) =
        (extractAll m.generate_meshes).filter
          (fun r => !(([T] : List String).contains r.1.element_type))) ∧
      (m.generate_meshes_filtered [T] none).vertices.length =
        72 * (m.generate_meshes_filtered [T] none).elements.length ∧
      (m.generate_meshes_filtered [T] none).normals.length =
        72 * (m.generate_meshes_filtered [T] none).elements.length ∧
      (m.generate_meshes_filtered [T] none).colors.length =
        96 * (m.generate_meshes_filtered [T] none).elements.length ∧
      (m.generate_meshes_filtered [T] none).indices.length =
        36 * (m.generate_meshes_filtered [T] none).elements.length := by
  intro m T hroofs hstairs hfootings hpipes hducts hterms hcables hproxies hne
  have hfull6 : full_items m =
      wall_items m.walls none ++ slab_items m.slabs none ++
      column_items m.columns none ++ beam_items m.beams none ++
      door_items m.doors none ++ window_items m.windows none := by
    unfold full_items
    rw [hroofs, hstairs, hfootings, hpipes, hducts, hterms, hcables, hproxies]
    simp [roof_items, stair_items, footing_items, pipe_items, duct_items,
      flow_terminal_items, cable_carrier_items, proxy_items]
  have hfiltrel : filtered_items m [T] none =
      (full_items m).filter
        (fun it => !(([T] : List String).contains it.element_type)) := by
    rw [hfull6]
    unfold filtered_items
    simp only [List.filter_append]
    rw [wall_items_filter, slab_items_filter, column_items_filter,
      beam_items_filter, door_items_filter, window_items_filter]
  have hfullne : full_items m ≠ [] := by
    intro hc
    apply hne
    rw [hfiltrel, hc]
    rfl
  have hgf : m.generate_meshes_filtered [T] none =
      assemble (filtered_items m [T] none) := by
    show assemble (if (filtered_items m [T] none).isEmpty then _ else _) = _
    rw [if_neg (fun hc => hne (List.isEmpty_iff.mp hc))]
  have hg : m.generate_meshes = assemble (full_items m) := by
    show assemble (if (full_items m).isEmpty then _ else _) = _
    rw [if_neg (fun hc => hfullne (List.isEmpty_iff.mp hc))]
  have hellen : ∀ items : List EmitItem,
      (assemble items).elements.length = items.length := by
    intro items
    show (buildElements 0 (items.map (fun it => (it, meshOfItem it)))).length = _
    rw [buildElements_length, List.length_map]
  refine ⟨?_, ?_, ?_, ?_, ?_⟩
  · rw [hgf, hg, extractAll_assemble, extractAll_assemble, hfiltrel,
      List.filter_map]
    congr 1
  · rw [hgf, assemble_vertices, hellen,
      flatten_const_len 72 _ (by
        intro x hx
        rcases List.mem_map.mp hx with ⟨it2, _, rfl⟩
        exact meshOfItem_vertices_length it2), List.length_map]
  · rw [hgf, assemble_normals, hellen,
      flatten_const_len 72 _ (by
        intro x hx
        rcases List.mem_map.mp hx with ⟨it2, _, rfl⟩
        exact meshOfItem_normals_length it2), List.length_map]
  · rw [hgf, assemble_colors, hellen,
      flatten_const_len 96 _ (by
        intro x hx
        rcases List.mem_map.mp hx with ⟨it2, _, rfl⟩
        exact meshOfItem_colors_length it2), List.length_map]
  · rw [hgf, assemble_indices, hellen,
      flatten_const_len 36 _ (offsetRows_len_mem _ (by
        intro x hx
        rcases List.mem_map.mp hx with ⟨it2, _, rfl⟩
        exact meshOfItem_indices_length it2) 0)]
    rw [offsetRows_length, List.length_map]

/-- C2 (witness): on the concrete one-wall one-slab model, hiding `Wall`
yields exactly the unfiltered contents minus the wall element. -/
theorem hidden_type_filtering_witness :
    extractAll (wallSlabModel.generate_meshes_filtered ["Wall"] none) =
      (extractAll wallSlabModel.generate_meshes).filter
        (fun r => !((["Wall"] : List String).contains r.1.element_type)) :=
  (hidden_type_filtering wallSlabModel "Wall" rfl rfl rfl rfl rfl rfl rfl rfl
    (by with_unfolding_all decide)).1

/-- Inserting a binding for a key absent from the map appends it. -/
theorem mapInsert_not_mem (m : List (EntityId × IfcEntity)) (k : EntityId)
    (v : IfcEntity) (h : k ∉ m.map Prod.fst) :
    mapInsert m k v = m ++ [(k, v)] := by
  have hc : m.any (fun p => p.1 = k) = false := by
    rw [List.any_eq_false]
    intro p hp
    simp only [decide_eq_true_eq]
    intro hk
    exact h (List.mem_map.mpr ⟨p, hp, hk⟩)
  unfold mapInsert
  rw [hc]
  simp

/-- Folding entities with pairwise-fresh ids into a map grows it by one
binding per entity. -/
theorem collectEntities_aux (es : List IfcEntity) :
    ∀ m : List (EntityId × IfcEntity),
      (m.map Prod.fst ++ es.map IfcEntity.id).Nodup →
      (es.foldl (fun m e => mapInsert m e.id e) m).length =
        m.length + es.length := by
  induction es with
  | nil => intro m h; simp
  | cons e rest ih =>
    intro m h
    have hnot : e.id ∉ m.map Prod.fst := by
      intro hc
      exact (List.nodup_append.mp h).2.2 hc (by simp)
    rw [List.foldl_cons, mapInsert_not_mem m e.id e hnot]
    have h2 : ((m ++ [(e.id, e)]).map Prod.fst ++
        rest.map IfcEntity.id).Nodup := by
      rw [List.map_append, List.append_assoc]
      simpa using h
    rw [ih _ h2]
    simp only [List.length_append, List.length_map, List.length_cons,
      List.length_nil]
    omega

/-- Collecting entities with pairwise-distinct ids preserves the count. -/
theorem collectEntities_length (es : List IfcEntity)
    (h : (es.map IfcEntity.id).Nodup) :
    (collectEntities es).length = es.length := by
  have := collectEntities_aux es [] (by simpa using h)
  simpa using this

/-- A successful whole-file parse determines the data-section entity list,
and the entity map is its `collect`. -/
theorem parse_ifc_file_entities (input : List Char) (f : IfcFile)
    (rest : List Char) (h : parse_ifc_file input = some (f, rest)) :
    ∃ es, parsed_data_entities input = some es ∧
      f.entities = collectEntities es := by
  unfold parse_ifc_file at h
  unfold parsed_data_entities
  cases h1 : parse_iso_header input with
  | none => rw [h1] at h; exact absurd h (by simp)
  | some i1 =>
    rw [h1] at h
    simp only [Option.bind_eq_bind, Option.some_bind] at h ⊢
    cases h2 : parse_header_section i1 with
    | none => rw [h2] at h; exact absurd h (by simp)
    | some p2 =>
      rw [h2] at h
      simp only [Option.bind_eq_bind, Option.some_bind] at h ⊢
      obtain ⟨hd, i2⟩ := p2
      cases h3 : parse_data_section (input.length + 1) i2 with
      | none => rw [h3] at h; exact absurd h (by simp)
      | some p3 =>
        rw [h3] at h
        simp only [Option.bind_eq_bind, Option.some_bind] at h ⊢
        obtain ⟨ents, i3⟩ := p3
        cases h4 : parse_iso_footer i3 with
        | none => rw [h4] at h; exact absurd h (by simp)
        | some i4 =>
          rw [h4] at h
          simp only [Option.bind_eq_bind, Option.some_bind,
            Option.some.injEq, Prod.mk.injEq] at h
          obtain ⟨hf, -⟩ := h
          exact ⟨ents, rfl, by rw [← hf]⟩

/-- C4 (amended): a successful parse of an input whose DATA section holds
`n` well-formed instances with pairwise-distinct ids yields a file with
`entity_count` equal to `n`; with duplicate ids the `HashMap` collapses
them and the count drops (see the counterexample). -/
theorem entity_count_instances :
    ∀ (input : List Char) (f : IfcFile) (rest : List Char)
      (es : List IfcEntity),
      parse_ifc_file input = some (f, rest) →
      parsed_data_entities input = some es →
      (es.map IfcEntity.id).Nodup →
      f.entity_count = es.length := by
  intro input f rest es hp hd hn
  obtain ⟨es2, hd2, hent⟩ := parse_ifc_file_entities input f rest hp
  rw [hd] at hd2
  injection hd2 with he
  subst he
  show f.entities.length = es.length
  rw [hent]
  exact collectEntities_length es hn

/-- C4 (counterexample): the claim fails as stated: the input `dupIdInput`
contains exactly two well-formed instances, both with id `#1`; the parse
succeeds but `entity_count` is `1`, because `collect` into the id-keyed
`HashMap` overwrites the first instance with the second. -/
theorem entity_count_dup_ids :
    (parsed_data_entities dupIdInput).map List.length = some 2 ∧
    (parse_ifc_file dupIdInput).map (fun p => p.1.entity_count) = some 1 := by
  constructor
  · with_unfolding_all rfl
  · with_unfolding_all rfl

/-- C4 (witness): the two-instance input with distinct ids `#1`, `#2`
parses to a file whose `entity_count` is `2`. -/
theorem entity_count_instances_witness :
    parse_ifc_file twoIdInput = some (twoIdFile, []) ∧
    twoIdFile.entity_count = 2 := by
  have h1 : parse_ifc_file twoIdInput = some (twoIdFile, []) := by
    with_unfolding_all rfl
  have h2 : parsed_data_entities twoIdInput = some twoIdEnts := by
    with_unfolding_all rfl
  refine ⟨h1, ?_⟩
  rw [entity_count_instances twoIdInput twoIdFile [] twoIdEnts h1 h2
    (by decide)]
  rfl

theorem emb_le_emb {a b : Rat} : emb a ≤ emb b ↔ a ≤ b := by
  unfold emb
  rw [WithBot.coe_le_coe, WithTop.coe_le_coe]

theorem emb_lt_emb {a b : Rat} : emb a < emb b ↔ a < b := by
  unfold emb
  rw [WithBot.coe_lt_coe, WithTop.coe_lt_coe]

theorem emb_lt_top (q : Rat) :
    emb q < ((⊤ : WithTop Rat) : WithBot (WithTop Rat)) := by
  unfold emb
  rw [WithBot.coe_lt_coe]
  exact WithTop.coe_lt_top q

theorem bot_lt_emb (q : Rat) : (⊥ : WithBot (WithTop Rat)) < emb q :=
  WithBot.bot_lt_coe _

theorem toE_le_top (a : XR) :
    toE a ≤ ((⊤ : WithTop Rat) : WithBot (WithTop Rat)) := by
  cases a with
  | nan => exact bot_le
  | negInf => exact bot_le
  | fin q => exact le_of_lt (emb_lt_top q)
  | posInf => exact le_refl _

theorem emb_min (a b : Rat) : emb (Min.min a b) = Min.min (emb a) (emb b) := by
  rcases le_total a b with h | h
  · rw [min_eq_left h, min_eq_left (emb_le_emb.mpr h)]
  · rw [min_eq_right h, min_eq_right (emb_le_emb.mpr h)]

theorem emb_max (a b : Rat) : emb (Max.max a b) = Max.max (emb a) (emb b) := by
  rcases le_total a b with h | h
  · rw [max_eq_right h, max_eq_right (emb_le_emb.mpr h)]
  · rw [max_eq_left h, max_eq_left (emb_le_emb.mpr h)]

theorem xmin_ne_nan {a b : XR} (ha : a ≠ XR.nan) (hb : b ≠ XR.nan) :
    xmin a b ≠ XR.nan := by
  cases a <;> cases b <;> simp_all [xmin]

theorem xmax_ne_nan {a b : XR} (ha : a ≠ XR.nan) (hb : b ≠ XR.nan) :
    xmax a b ≠ XR.nan := by
  cases a <;> cases b <;> simp_all [xmax]

theorem toE_xmin {a b : XR} (ha : a ≠ XR.nan) (hb : b ≠ XR.nan) :
    toE (xmin a b) = Min.min (toE a) (toE b) := by
  cases a with
  | nan => exact absurd rfl ha
  | negInf =>
    cases b <;> simp_all [xmin, toE]
  | fin q =>
    cases b with
    | nan => exact absurd rfl hb
    | negInf => simp [xmin, toE]
    | fin r => simp [xmin, toE, emb_min]
    | posInf =>
      rw [show xmin (XR.fin q) XR.posInf = XR.fin q from rfl]
      rw [show toE (XR.fin q) = emb q from rfl,
        show toE XR.posInf = ((⊤ : WithTop Rat) : WithBot (WithTop Rat)) from rfl]
      rw [min_eq_left (le_of_lt (emb_lt_top q))]
  | posInf =>
    cases b with
    | nan => exact absurd rfl hb
    | negInf => simp [xmin, toE]
    | fin r =>
      rw [show xmin XR.posInf (XR.fin r) = XR.fin r from rfl]
      rw [show toE (XR.fin r) = emb r from rfl,
        show toE XR.posInf = ((⊤ : WithTop Rat) : WithBot (WithTop Rat)) from rfl]
      rw [min_eq_right (le_of_lt (emb_lt_top r))]
    | posInf => simp [xmin, toE]

theorem toE_xmax {a b : XR} (ha : a ≠ XR.nan) (hb : b ≠ XR.nan) :
    toE (xmax a b) = Max.max (toE a) (toE b) := by
  cases a with
  | nan => exact absurd rfl ha
  | negInf =>
    cases b <;> simp_all [xmax, toE]
  | fin q =>
    cases b with
    | nan => exact absurd rfl hb
    | negInf => simp [xmax, toE]
    | fin r => simp [xmax, toE, emb_max]
    | posInf =>
      rw [show xmax (XR.fin q) XR.posInf = XR.posInf from rfl]
      rw [show toE (XR.fin q) = emb q from rfl]
      rw [show toE XR.posInf = ((⊤ : WithTop Rat) : WithBot (WithTop Rat)) from rfl]
      rw [max_eq_right (le_of_lt (emb_lt_top q))]
  | posInf =>
    cases b with
    | nan => exact absurd rfl hb
    | negInf => simp [xmax, toE]
    | fin r =>
      rw [show xmax XR.posInf (XR.fin r) = XR.posInf from rfl]
      rw [show toE (XR.fin r) = emb r from rfl]
      rw [show toE XR.posInf = ((⊤ : WithTop Rat) : WithBot (WithTop Rat)) from rfl]
      rw [max_eq_left (le_of_lt (emb_lt_top r))]
    | posInf => simp [xmax, toE]

theorem xlt_iff {a b : XR} (ha : a ≠ XR.nan) (hb : b ≠ XR.nan) :
    xlt a b = true ↔ toE a < toE b := by
  cases a with
  | nan => exact absurd rfl ha
  | negInf =>
    cases b with
    | nan => exact absurd rfl hb
    | negInf => exact iff_of_false (by simp [xlt]) (lt_irrefl _)
    | fin r => exact iff_of_true (by simp [xlt]) (bot_lt_emb r)
    | posInf => exact iff_of_true (by simp [xlt]) (WithBot.bot_lt_coe _)
  | fin q =>
    cases b with
    | nan => exact absurd rfl hb
    | negInf =>
      exact iff_of_false (by simp [xlt]) (not_lt.mpr (bot_le : (⊥ : WithBot (WithTop Rat)) ≤ emb q))
    | fin r =>
      show decide (q < r) = true ↔ emb q < emb r
      rw [decide_eq_true_eq, emb_lt_emb]
    | posInf => exact iff_of_true (by simp [xlt]) (emb_lt_top q)
  | posInf =>
    cases b with
    | nan => exact absurd rfl hb
    | negInf =>
      exact iff_of_false (by simp [xlt]) (not_lt.mpr (bot_le : (⊥ : WithBot (WithTop Rat)) ≤ _))
    | fin r =>
      exact iff_of_false (by simp [xlt]) (not_lt.mpr (le_of_lt (emb_lt_top r)))
    | posInf => exact iff_of_false (by simp [xlt]) (lt_irrefl _)

theorem xmin_eq_posInf {a b : XR} (ha : a ≠ XR.nan) (hb : b ≠ XR.nan) :
    xmin a b = XR.posInf ↔ a = XR.posInf ∧ b = XR.posInf := by
  cases a <;> cases b <;> simp_all [xmin]

theorem xr_shape (a : XR) (ha : a ≠ XR.nan) :
    a = XR.negInf ∨ a = XR.posInf ∨ ∃ q, a = XR.fin q := by
  cases a with
  | nan => exact absurd rfl ha
  | negInf => exact Or.inl rfl
  | posInf => exact Or.inr (Or.inl rfl)
  | fin q => exact Or.inr (Or.inr ⟨q, rfl⟩)

theorem lt_emb_exists {L : WithBot (WithTop Rat)} {c : Rat} (h : L < emb c) :
    ∃ q : Rat, q < c ∧ L ≤ emb q := by
  induction L using WithBot.recBotCoe with
  | bot => exact ⟨c - 1, by linarith, bot_le⟩
  | coe x =>
    induction x using WithTop.recTopCoe with
    | top => exact absurd h (not_lt.mpr (le_of_lt (emb_lt_top c)))
    | coe l =>
      refine ⟨l, ?_, le_refl _⟩
      exact emb_lt_emb.mp h
theorem recipOf_zero : recipOf 0 = XR.posInf := by
  simp [recipOf]

theorem xmulFin_posInf (q : Rat) :
    xmulFin q XR.posInf =
      (if 0 < q then XR.posInf else if q < 0 then XR.negInf else XR.nan) := rfl

theorem axis_ne_nan (o d bmin bmax : Rat)
    (hz : d = 0 → o ≠ bmin ∧ o ≠ bmax) :
    xmulFin (bmin - o) (recipOf d) ≠ XR.nan ∧
    xmulFin (bmax - o) (recipOf d) ≠ XR.nan := by
  by_cases hd : d = 0
  · subst hd
    obtain ⟨h1, h2⟩ := hz rfl
    have hq1 : bmin - o ≠ 0 := sub_ne_zero.mpr (Ne.symm h1)
    have hq2 : bmax - o ≠ 0 := sub_ne_zero.mpr (Ne.symm h2)
    rw [recipOf_zero, xmulFin_posInf, xmulFin_posInf]
    constructor
    · split_ifs with hp hn
      · decide
      · decide
      · exact absurd (le_antisymm (not_lt.mp hn) (not_lt.mp hp)) (Ne.symm hq1)
    · split_ifs with hp hn
      · decide
      · decide
      · exact absurd (le_antisymm (not_lt.mp hn) (not_lt.mp hp)) (Ne.symm hq2)
  · constructor <;> simp [recipOf, hd, xmulFin]

theorem axis_slab_iff (o d bmin bmax : Rat) (hb : bmin ≤ bmax)
    (hz : d = 0 → o ≠ bmin ∧ o ≠ bmax) (t : Rat) :
    (bmin ≤ o + t * d ∧ o + t * d ≤ bmax) ↔
      (toE (xmin (xmulFin (bmin - o) (recipOf d))
                 (xmulFin (bmax - o) (recipOf d))) ≤ emb t ∧
       emb t ≤ toE (xmax (xmulFin (bmin - o) (recipOf d))
                 (xmulFin (bmax - o) (recipOf d)))) := by
  rcases lt_trichotomy d 0 with hd | hd | hd
  · have hdne : d ≠ 0 := ne_of_lt hd
    have e1 : xmulFin (bmin - o) (recipOf d) = XR.fin ((bmin - o) / d) := by
      simp [recipOf, hdne, xmulFin, div_eq_mul_inv]
    have e2 : xmulFin (bmax - o) (recipOf d) = XR.fin ((bmax - o) / d) := by
      simp [recipOf, hdne, xmulFin, div_eq_mul_inv]
    have hlo : (bmax - o) / d ≤ (bmin - o) / d := by
      rw [div_le_div_right_of_neg hd]
      nlinarith
    rw [e1, e2]
    rw [show xmin (XR.fin ((bmin - o) / d)) (XR.fin ((bmax - o) / d)) =
      XR.fin (Min.min ((bmin - o) / d) ((bmax - o) / d)) from rfl]
    rw [show xmax (XR.fin ((bmin - o) / d)) (XR.fin ((bmax - o) / d)) =
      XR.fin (Max.max ((bmin - o) / d) ((bmax - o) / d)) from rfl]
    rw [min_eq_right hlo, max_eq_left hlo]
    rw [show toE (XR.fin ((bmax - o) / d)) = emb ((bmax - o) / d) from rfl]
    rw [show toE (XR.fin ((bmin - o) / d)) = emb ((bmin - o) / d) from rfl]
    rw [emb_le_emb, emb_le_emb]
    constructor
    · rintro ⟨h1, h2⟩
      constructor
      · rw [div_le_iff_of_neg hd]
        nlinarith
      · rw [le_div_iff_of_neg hd]
        nlinarith
    · rintro ⟨h1, h2⟩
      rw [div_le_iff_of_neg hd] at h1
      rw [le_div_iff_of_neg hd] at h2
      constructor <;> nlinarith
  · subst hd
    obtain ⟨h1, h2⟩ := hz rfl
    rw [recipOf_zero, xmulFin_posInf, xmulFin_posInf]
    rcases lt_trichotomy o bmin with ho | ho | ho
    · have hp1 : 0 < bmin - o := by linarith
      have hp2 : 0 < bmax - o := by linarith
      rw [if_pos hp1, if_pos hp2]
      rw [show xmin XR.posInf XR.posInf = XR.posInf from rfl,
        show xmax XR.posInf XR.posInf = XR.posInf from rfl]
      refine iff_of_false ?_ ?_
      · rintro ⟨hc, -⟩
        rw [mul_zero, add_zero] at hc
        linarith
      · rintro ⟨hc, -⟩
        exact absurd hc (not_le.mpr (emb_lt_top t))
    · exact absurd ho h1
    · rcases lt_trichotomy o bmax with ho2 | ho2 | ho2
      · have hn1 : bmin - o < 0 := by linarith
        have hp2 : 0 < bmax - o := by linarith
        have hng1 : ¬(0 < bmin - o) := by linarith
        rw [if_neg hng1, if_pos hn1, if_pos hp2]
        rw [show xmin XR.negInf XR.posInf = XR.negInf from rfl,
          show xmax XR.negInf XR.posInf = XR.posInf from rfl]
        refine iff_of_true ?_ ?_
        · rw [mul_zero, add_zero]
          exact ⟨le_of_lt ho, le_of_lt ho2⟩
        · exact ⟨bot_le, le_of_lt (emb_lt_top t)⟩
      · exact absurd ho2 h2
      · have hn1 : bmin - o < 0 := by linarith
        have hn2 : bmax - o < 0 := by linarith
        have hng1 : ¬(0 < bmin - o) := by linarith
        have hng2 : ¬(0 < bmax - o) := by linarith
        rw [if_neg hng1, if_pos hn1, if_neg hng2, if_pos hn2]
        rw [show xmin XR.negInf XR.negInf = XR.negInf from rfl,
          show xmax XR.negInf XR.negInf = XR.negInf from rfl]
        refine iff_of_false ?_ ?_
        · rintro ⟨-, hc⟩
          rw [mul_zero, add_zero] at hc
          linarith
        · rintro ⟨-, hc⟩
          exact absurd hc (not_le.mpr (bot_lt_emb t))
  · have hdne : d ≠ 0 := ne_of_gt hd
    have e1 : xmulFin (bmin - o) (recipOf d) = XR.fin ((bmin - o) / d) := by
      simp [recipOf, hdne, xmulFin, div_eq_mul_inv]
    have e2 : xmulFin (bmax - o) (recipOf d) = XR.fin ((bmax - o) / d) := by
      simp [recipOf, hdne, xmulFin, div_eq_mul_inv]
    have hlo : (bmin - o) / d ≤ (bmax - o) / d := by
      rw [div_le_div_right hd]
      linarith
    rw [e1, e2]
    rw [show xmin (XR.fin ((bmin - o) / d)) (XR.fin ((bmax - o) / d)) =
      XR.fin (Min.min ((bmin - o) / d) ((bmax - o) / d)) from rfl]
    rw [show xmax (XR.fin ((bmin - o) / d)) (XR.fin ((bmax - o) / d)) =
      XR.fin (Max.max ((bmin - o) / d) ((bmax - o) / d)) from rfl]
    rw [min_eq_left hlo, max_eq_right hlo]
    rw [show toE (XR.fin ((bmax - o) / d)) = emb ((bmax - o) / d) from rfl]
    rw [show toE (XR.fin ((bmin - o) / d)) = emb ((bmin - o) / d) from rfl]
    rw [emb_le_emb, emb_le_emb]
    constructor
    · rintro ⟨h1, h2⟩
      constructor
      · rw [div_le_iff hd]
        nlinarith
      · rw [le_div_iff hd]
        nlinarith
    · rintro ⟨h1, h2⟩
      rw [div_le_iff hd] at h1
      rw [le_div_iff hd] at h2
      constructor <;> nlinarith
theorem fin0_ne_nan : XR.fin 0 ≠ XR.nan := by decide

set_option maxHeartbeats 1600000 in
theorem ray_core (o d bmin bmax : P3)
    (hbx : bmin.x ≤ bmax.x) (hby : bmin.y ≤ bmax.y) (hbz : bmin.z ≤ bmax.z)
    (hdx : d.x = 0 → o.x ≠ bmin.x ∧ o.x ≠ bmax.x)
    (hdy : d.y = 0 → o.y ≠ bmin.y ∧ o.y ≠ bmax.y)
    (hdz : d.z = 0 → o.z ≠ bmin.z ∧ o.z ≠ bmax.z)
    (hdd : ¬(d.x = 0 ∧ d.y = 0 ∧ d.z = 0)) :
    (ray_aabb_intersect o d bmin bmax = none ↔
        ¬∃ t : Rat, 0 ≤ t ∧ slabMem o d bmin bmax t) ∧
    (∀ r : Rat, ray_aabb_intersect o d bmin bmax = some (XR.fin r) →
        0 ≤ r ∧ slabMem o d bmin bmax r ∧ slabEndpoint o d bmin bmax r ∧
        ∀ s : Rat, 0 ≤ s → slabEndpoint o d bmin bmax s → r ≤ s) ∧
    (ray_aabb_intersect o d bmin bmax = none ∨
        ∃ r : Rat, ray_aabb_intersect o d bmin bmax = some (XR.fin r)) := by
  obtain ⟨hn1, hn2⟩ := axis_ne_nan o.x d.x bmin.x bmax.x hdx
  obtain ⟨hn3, hn4⟩ := axis_ne_nan o.y d.y bmin.y bmax.y hdy
  obtain ⟨hn5, hn6⟩ := axis_ne_nan o.z d.z bmin.z bmax.z hdz
  set a1 := xmulFin (bmin.x - o.x) (recipOf d.x) with ha1
  set a2 := xmulFin (bmax.x - o.x) (recipOf d.x) with ha2
  set a3 := xmulFin (bmin.y - o.y) (recipOf d.y) with ha3
  set a4 := xmulFin (bmax.y - o.y) (recipOf d.y) with ha4
  set a5 := xmulFin (bmin.z - o.z) (recipOf d.z) with ha5
  set a6 := xmulFin (bmax.z - o.z) (recipOf d.z) with ha6
  set tn := xmax (xmax (xmin a1 a2) (xmin a3 a4)) (xmin a5 a6) with htn
  set tx := xmin (xmin (xmax a1 a2) (xmax a3 a4)) (xmax a5 a6) with htx
  have hres : ray_aabb_intersect o d bmin bmax =
      if xlt tx (XR.fin 0) || xlt tx tn then none
      else some (if xlt tn (XR.fin 0) then tx else tn) := rfl
  have hmn1 : xmin a1 a2 ≠ XR.nan := xmin_ne_nan hn1 hn2
  have hmn2 : xmin a3 a4 ≠ XR.nan := xmin_ne_nan hn3 hn4
  have hmn3 : xmin a5 a6 ≠ XR.nan := xmin_ne_nan hn5 hn6
  have hmx1 : xmax a1 a2 ≠ XR.nan := xmax_ne_nan hn1 hn2
  have hmx2 : xmax a3 a4 ≠ XR.nan := xmax_ne_nan hn3 hn4
  have hmx3 : xmax a5 a6 ≠ XR.nan := xmax_ne_nan hn5 hn6
  have hntn : tn ≠ XR.nan := xmax_ne_nan (xmax_ne_nan hmn1 hmn2) hmn3
  have hntx : tx ≠ XR.nan := xmin_ne_nan (xmin_ne_nan hmx1 hmx2) hmx3
  have htnE : toE tn =
      Max.max (Max.max (toE (xmin a1 a2)) (toE (xmin a3 a4)))
        (toE (xmin a5 a6)) := by
    rw [htn, toE_xmax (xmax_ne_nan hmn1 hmn2) hmn3, toE_xmax hmn1 hmn2]
  have htxE : toE tx =
      Min.min (Min.min (toE (xmax a1 a2)) (toE (xmax a3 a4)))
        (toE (xmax a5 a6)) := by
    rw [htx, toE_xmin (xmin_ne_nan hmx1 hmx2) hmx3, toE_xmin hmx1 hmx2]
  have hmem : ∀ t : Rat, slabMem o d bmin bmax t ↔
      (toE tn ≤ emb t ∧ emb t ≤ toE tx) := by
    intro t
    rw [htnE, htxE]
    unfold slabMem
    rw [axis_slab_iff o.x d.x bmin.x bmax.x hbx hdx t,
        axis_slab_iff o.y d.y bmin.y bmax.y hby hdy t,
        axis_slab_iff o.z d.z bmin.z bmax.z hbz hdz t,
        ← ha1, ← ha2, ← ha3, ← ha4, ← ha5, ← ha6]
    simp only [max_le_iff, le_min_iff]
    tauto
  have hxne : tx ≠ XR.posInf := by
    intro hc
    rw [htx, xmin_eq_posInf (xmin_ne_nan hmx1 hmx2) hmx3] at hc
    obtain ⟨hc1, hc3⟩ := hc
    rw [xmin_eq_posInf hmx1 hmx2] at hc1
    obtain ⟨hcx, hcy⟩ := hc1
    rcases not_and_or.mp hdd with h | h
    · have e1 : a1 = XR.fin ((bmin.x - o.x) / d.x) := by
        rw [ha1]; simp [recipOf, h, xmulFin, div_eq_mul_inv]
      have e2 : a2 = XR.fin ((bmax.x - o.x) / d.x) := by
        rw [ha2]; simp [recipOf, h, xmulFin, div_eq_mul_inv]
      rw [e1, e2] at hcx
      exact absurd hcx (by simp [xmax])
    · rcases not_and_or.mp h with h | h
      · have e1 : a3 = XR.fin ((bmin.y - o.y) / d.y) := by
          rw [ha3]; simp [recipOf, h, xmulFin, div_eq_mul_inv]
        have e2 : a4 = XR.fin ((bmax.y - o.y) / d.y) := by
          rw [ha4]; simp [recipOf, h, xmulFin, div_eq_mul_inv]
        rw [e1, e2] at hcy
        exact absurd hcy (by simp [xmax])
      · have e1 : a5 = XR.fin ((bmin.z - o.z) / d.z) := by
          rw [ha5]; simp [recipOf, h, xmulFin, div_eq_mul_inv]
        have e2 : a6 = XR.fin ((bmax.z - o.z) / d.z) := by
          rw [ha6]; simp [recipOf, h, xmulFin, div_eq_mul_inv]
        rw [e1, e2] at hc3
        exact absurd hc3 (by simp [xmax])
  cases hB : xlt tx (XR.fin 0) || xlt tx tn with
  | true =>
    have hnone : ray_aabb_intersect o d bmin bmax = none := by
      rw [hres, if_pos hB]
    have hno : ¬∃ t : Rat, 0 ≤ t ∧ slabMem o d bmin bmax t := by
      rintro ⟨t, ht0, htm⟩
      obtain ⟨hl, hu⟩ := (hmem t).mp htm
      rw [Bool.or_eq_true] at hB
      rcases hB with h | h
      · have hlt : toE tx < toE (XR.fin 0) := (xlt_iff hntx fin0_ne_nan).mp h
        have h0t : emb 0 ≤ emb t := emb_le_emb.mpr ht0
        exact absurd (le_trans h0t hu) (not_le.mpr hlt)
      · have hlt : toE tx < toE tn := (xlt_iff hntx hntn).mp h
        exact absurd (le_trans hl hu) (not_le.mpr hlt)
    refine ⟨iff_of_true hnone hno, ?_, Or.inl hnone⟩
    intro r hr
    rw [hnone] at hr
    exact Option.noConfusion hr
  | false =>
    rw [Bool.or_eq_false_iff] at hB
    obtain ⟨hb1, hb2⟩ := hB
    have hcond : ¬(xlt tx (XR.fin 0) || xlt tx tn) = true := by
      rw [hb1, hb2]
      exact Bool.false_ne_true
    have hge0 : emb 0 ≤ toE tx := by
      by_contra hc
      push_neg at hc
      have := (xlt_iff hntx fin0_ne_nan).mpr hc
      rw [hb1] at this
      exact Bool.noConfusion this
    have hlex : toE tn ≤ toE tx := by
      by_contra hc
      push_neg at hc
      have := (xlt_iff hntx hntn).mpr hc
      rw [hb2] at this
      exact Bool.noConfusion this
    have hxfin : ∃ r2 : Rat, tx = XR.fin r2 := by
      rcases xr_shape tx hntx with h | h | ⟨q, h⟩
      · rw [h] at hge0
        exact absurd hge0 (not_le.mpr (bot_lt_emb 0))
      · exact absurd h hxne
      · exact ⟨q, h⟩
    obtain ⟨r2, hr2⟩ := hxfin
    have htxe : toE tx = emb r2 := by rw [hr2]; rfl
    have hr20 : (0:Rat) ≤ r2 := by
      rw [htxe] at hge0
      exact emb_le_emb.mp hge0
    have hmemr2 : slabMem o d bmin bmax r2 := by
      refine (hmem r2).mpr ⟨?_, ?_⟩
      · rw [← htxe]
        exact hlex
      · rw [htxe]
    cases hB2 : xlt tn (XR.fin 0) with
    | true =>
      have hres2 : ray_aabb_intersect o d bmin bmax = some tx := by
        rw [hres, if_neg hcond, if_pos hB2]
      have hlt0 : toE tn < toE (XR.fin 0) := (xlt_iff hntn fin0_ne_nan).mp hB2
      refine ⟨iff_of_false (by rw [hres2]; simp)
        (not_not_intro ⟨r2, hr20, hmemr2⟩), ?_, Or.inr ⟨r2, by rw [hres2, hr2]⟩⟩
      intro r hr
      rw [hres2, hr2] at hr
      injection hr with hr
      injection hr with hr
      subst hr
      have hupper : ∀ t, slabMem o d bmin bmax t → t ≤ r2 := by
        intro t ht
        have := ((hmem t).mp ht).2
        rw [htxe] at this
        exact emb_le_emb.mp this
      refine ⟨hr20, hmemr2, ⟨hmemr2, Or.inr hupper⟩, ?_⟩
      intro s hs0 hse
      obtain ⟨hsmem, hsb⟩ := hse
      rcases hsb with hlow | hup
      · obtain ⟨q, hq0, hqge⟩ := lt_emb_exists hlt0
        have hqmem : slabMem o d bmin bmax q := by
          refine (hmem q).mpr ⟨hqge, ?_⟩
          rw [htxe]
          exact emb_le_emb.mpr (by linarith)
        have := hlow q hqmem
        linarith
      · exact hup r2 hmemr2
    | false =>
      have hres2 : ray_aabb_intersect o d bmin bmax = some tn := by
        rw [hres, if_neg hcond, if_neg (by rw [hB2]; exact Bool.false_ne_true)]
      have hge0n : emb 0 ≤ toE tn := by
        by_contra hc
        push_neg at hc
        have := (xlt_iff hntn fin0_ne_nan).mpr hc
        rw [hB2] at this
        exact Bool.noConfusion this
      have hnfin : ∃ r1 : Rat, tn = XR.fin r1 := by
        rcases xr_shape tn hntn with h | h | ⟨q, h⟩
        · rw [h] at hge0n
          exact absurd hge0n (not_le.mpr (bot_lt_emb 0))
        · rw [h] at hlex
          rw [htxe] at hlex
          exact absurd hlex (not_le.mpr (emb_lt_top r2))
        · exact ⟨q, h⟩
      obtain ⟨r1, hr1⟩ := hnfin
      have htne : toE tn = emb r1 := by rw [hr1]; rfl
      have hr10 : (0:Rat) ≤ r1 := by
        rw [htne] at hge0n
        exact emb_le_emb.mp hge0n
      have hmemr1 : slabMem o d bmin bmax r1 := by
        refine (hmem r1).mpr ⟨le_of_eq htne, ?_⟩
        rw [← htne]
        exact hlex
      have hlower : ∀ t, slabMem o d bmin bmax t → r1 ≤ t := by
        intro t ht
        have := ((hmem t).mp ht).1
        rw [htne] at this
        exact emb_le_emb.mp this
      refine ⟨iff_of_false (by rw [hres2]; simp)
        (not_not_intro ⟨r1, hr10, hmemr1⟩), ?_, Or.inr ⟨r1, by rw [hres2, hr1]⟩⟩
      intro r hr
      rw [hres2, hr1] at hr
      injection hr with hr
      injection hr with hr
      subst hr
      refine ⟨hr10, hmemr1, ⟨hmemr1, Or.inl hlower⟩, ?_⟩
      intro s hs0 hse
      exact hlower s hse.1
/-- C5 (amended): under per-axis well-formedness (`box_min <= box_max`), the
no-NaN side conditions (a zero direction component never starts exactly on
that axis's slab faces) and a not-all-zero direction, `ray_aabb_intersect`
returns `None` exactly when no non-negative parameter lies in all three
slabs; any returned value is finite, non-negative, lies in all three
slabs, is an endpoint of the slab interval, and is the least non-negative
endpoint (the exit distance when the origin is inside). In particular the
ray (0,0,-10) -> +z hits the box [-1,1]^3 at 9 and misses [5,6]^3. -/
theorem ray_box_intersection :
    (∀ o d bmin bmax : P3,
      bmin.x ≤ bmax.x → bmin.y ≤ bmax.y → bmin.z ≤ bmax.z →
      (d.x = 0 → o.x ≠ bmin.x ∧ o.x ≠ bmax.x) →
      (d.y = 0 → o.y ≠ bmin.y ∧ o.y ≠ bmax.y) →
      (d.z = 0 → o.z ≠ bmin.z ∧ o.z ≠ bmax.z) →
      ¬(d.x = 0 ∧ d.y = 0 ∧ d.z = 0) →
      ((ray_aabb_intersect o d bmin bmax = none ↔
          ¬∃ t : Rat, 0 ≤ t ∧ slabMem o d bmin bmax t) ∧
       (∀ r : Rat, ray_aabb_intersect o d bmin bmax = some (XR.fin r) →
          0 ≤ r ∧ slabMem o d bmin bmax r ∧ slabEndpoint o d bmin bmax r ∧
          ∀ s : Rat, 0 ≤ s → slabEndpoint o d bmin bmax s → r ≤ s) ∧
       (ray_aabb_intersect o d bmin bmax = none ∨
          ∃ r : Rat, ray_aabb_intersect o d bmin bmax = some (XR.fin r)))) ∧
    ray_aabb_intersect ⟨0, 0, -10⟩ ⟨0, 0, 1⟩ ⟨-1, -1, -1⟩ ⟨1, 1, 1⟩ =
      some (XR.fin 9) ∧
    ray_aabb_intersect ⟨0, 0, -10⟩ ⟨0, 0, 1⟩ ⟨5, 5, 5⟩ ⟨6, 6, 6⟩ = none := by
  refine ⟨?_, ?_, ?_⟩
  · intro o d bmin bmax hbx hby hbz hdx hdy hdz hdd
    exact ray_core o d bmin bmax hbx hby hbz hdx hdy hdz hdd
  · with_unfolding_all decide
  · with_unfolding_all decide

/-- C5 (counterexample): the claim fails as stated: the ray from
(0,0,-10) along +z against the box [0,1]x[-1,1]x[-1,1] grazes the x = 0
face: the parameter 9 is non-negative and lies in all three slabs, yet
the function returns `None`, because `dir.x = 0` with
`origin.x = box_min.x` makes `t1 = 0 * inf = NaN` and the NaN-discarding
min/max chain then yields `tmin = +inf`. -/
theorem ray_intersect_claim_false :
    ray_aabb_intersect ⟨0, 0, -10⟩ ⟨0, 0, 1⟩ ⟨0, -1, -1⟩ ⟨1, 1, 1⟩ = none ∧
    (0:Rat) ≤ 9 ∧ slabMem ⟨0, 0, -10⟩ ⟨0, 0, 1⟩ ⟨0, -1, -1⟩ ⟨1, 1, 1⟩ 9 := by
  refine ⟨by with_unfolding_all decide, by norm_num,
    by with_unfolding_all decide⟩

/-- C5 (witness): the amended contract at the concrete hit case: the
returned distance 9 is a non-negative member and the least non-negative
endpoint of the slab interval of the ray (0,0,-10) -> +z and the box
[-1,1]^3. -/
theorem ray_box_intersection_witness :
    0 ≤ (9:Rat) ∧ slabMem ⟨0, 0, -10⟩ ⟨0, 0, 1⟩ ⟨-1, -1, -1⟩ ⟨1, 1, 1⟩ 9 ∧
    slabEndpoint ⟨0, 0, -10⟩ ⟨0, 0, 1⟩ ⟨-1, -1, -1⟩ ⟨1, 1, 1⟩ 9 ∧
    ∀ s : Rat, 0 ≤ s →
      slabEndpoint ⟨0, 0, -10⟩ ⟨0, 0, 1⟩ ⟨-1, -1, -1⟩ ⟨1, 1, 1⟩ s → 9 ≤ s :=
  (ray_box_intersection.1 ⟨0, 0, -10⟩ ⟨0, 0, 1⟩ ⟨-1, -1, -1⟩ ⟨1, 1, 1⟩
    (by with_unfolding_all decide) (by with_unfolding_all decide)
    (by with_unfolding_all decide)
    (fun _ => by with_unfolding_all decide)
    (fun _ => by with_unfolding_all decide)
    (fun _ => by with_unfolding_all decide)
    (by with_unfolding_all decide)).2.1 9 (by with_unfolding_all decide)
